import Mathlib

/-!
Verification of the Vocational_Insight_Jobs batch-job scripts.

Shallow embedding of the repository's Python code:

* `src/laborum_job/areas_scrapper_v2.py` — `reemplazar` (slug normalisation).
* `src/news_job/main.py` — `calcular_fecha` (date normalisation) and
  `almacenar_noticias_en_db` (news dedup-by-URL).
* `src/enrolled_job/matriculados_automatizacion/matriculados.py` and
  `matriculados_linux.py` — artifact discovery (year extraction), the
  chunked CSV reader, schema reconciliation, and the per-artifact
  orchestration (download → extract → ledger check → load → ledger write).

Strings are modelled as Lean `String`/`List Char`; Python dictionaries as
insertion-ordered association lists; pandas data frames as ordered lists of
named columns; the database and filesystem as explicit state threaded
through the per-artifact step functions.  External outcomes (HTTP success,
subprocess exit status, SQL errors) are oracle fields of an environment
record, since the scripts only branch on them.
-/

/-! ## Python string primitives -/

/-- Whitespace characters of Python's `str.strip` / regex `\s` (ASCII part;
the scripts only meet ASCII whitespace). -/
def isPyWs (c : Char) : Bool :=
  c == ' ' || c == '\t' || c == '\n' || c == '\r' || c == '\x0b' || c == '\x0c'

/-- Model of Python `str.strip()` on a character list. -/
def pyStripList (l : List Char) : List Char :=
  ((l.dropWhile isPyWs).reverse.dropWhile isPyWs).reverse

/-- Model of Python `str.strip()`. -/
def pyStrip (s : String) : String :=
  ⟨pyStripList s.data⟩

/-- Model of Python `str.split(';')` (keeps empty pieces; `""` gives `[""]`). -/
def splitSemisList : List Char → List (List Char)
  | [] => [[]]
  | c :: rest =>
    match splitSemisList rest with
    | [] => if c = ';' then [[], []] else [[c]]
    | h :: t => if c = ';' then [] :: h :: t else (c :: h) :: t

/-- Model of Python `str.split(';')` on strings. -/
def splitSemis (s : String) : List String :=
  (splitSemisList s.data).map fun l => ⟨l⟩

/-- Value of a decimal digit character. -/
def digitVal (c : Char) : Nat := c.toNat - 48

/-- Model of Python `int(...)` on a string of decimal digits. -/
def digitsToNat (l : List Char) : Nat :=
  l.foldl (fun a c => 10 * a + digitVal c) 0

/-! ## `reemplazar` from src/laborum_job/areas_scrapper_v2.py (lines 85-98)

```python
def reemplazar(texto):
    acentos = {'á': 'a', 'é': 'e', 'í': 'i', 'ó': 'o', 'ú': 'u',
               'Á': 'A', 'É': 'E', 'Í': 'I', 'Ó': 'O', 'Ú': 'U'}
    for acentuada, simple in acentos.items():
        texto = re.sub(acentuada, simple, texto)
    texto = re.sub(r',', '', texto)
    texto = re.sub(r'\s+', '-', texto)
    return texto.lower()
```
-/

/-- The accented vowels of `reemplazar`'s replacement table. -/
def tableAccents : List Char :=
  ['á', 'é', 'í', 'ó', 'ú', 'Á', 'É', 'Í', 'Ó', 'Ú']

/-- First-match lookup in an association list (the semantics of the Python
dict lookups and character tables used throughout the scripts). -/
def assocGet {α β : Type} [DecidableEq α] : List (α × β) → α → Option β
  | [], _ => none
  | p :: rest, c => if c = p.1 then some p.2 else assocGet rest c

/-- The `acentos` dictionary of `reemplazar`, as (accented, replacement)
pairs in the source's insertion order. -/
def accentTable : List (Char × Char) :=
  [('á', 'a'), ('é', 'e'), ('í', 'i'), ('ó', 'o'), ('ú', 'u'),
   ('Á', 'A'), ('É', 'E'), ('Í', 'I'), ('Ó', 'O'), ('Ú', 'U')]

/-- One pass of the `acentos` substitutions: the ten `re.sub` calls act
independently on single characters with disjoint domains, so their
composition is a character map. -/
def replaceAccent (c : Char) : Char :=
  (assocGet accentTable c).getD c

/-- Model of `re.sub(r'\s+', '-', texto)`: each maximal run of whitespace
becomes a single `'-'`.  The boolean records whether the previous character
was part of a whitespace run. -/
def collapseWsAux : Bool → List Char → List Char
  | _, [] => []
  | prev, c :: rest =>
    if isPyWs c then
      if prev then collapseWsAux true rest else '-' :: collapseWsAux true rest
    else c :: collapseWsAux false rest

/-- Lowercasing table for Python's `str.lower()` on the alphabet the
scraped inputs use: ASCII letters plus the accented/Spanish uppercase. -/
def lowerTable : List (Char × Char) :=
  [('A', 'a'), ('B', 'b'), ('C', 'c'), ('D', 'd'), ('E', 'e'), ('F', 'f'),
   ('G', 'g'), ('H', 'h'), ('I', 'i'), ('J', 'j'), ('K', 'k'), ('L', 'l'),
   ('M', 'm'), ('N', 'n'), ('O', 'o'), ('P', 'p'), ('Q', 'q'), ('R', 'r'),
   ('S', 's'), ('T', 't'), ('U', 'u'), ('V', 'v'), ('W', 'w'), ('X', 'x'),
   ('Y', 'y'), ('Z', 'z'),
   ('Á', 'á'), ('É', 'é'), ('Í', 'í'), ('Ó', 'ó'), ('Ú', 'ú'),
   ('Ñ', 'ñ'), ('Ü', 'ü')]

/-- The uppercase letters of the modelled alphabet. -/
def upperChars : List Char := lowerTable.map Prod.fst

/-- Model of Python `str.lower()` on one character (restricted to the
alphabet in `upperChars`; other characters are fixed). -/
def pyToLower (c : Char) : Char :=
  (assocGet lowerTable c).getD c

/-- `reemplazar` on character lists: accent substitutions, comma removal,
whitespace collapsing, then lowercasing — in the source's order. -/
def reemplazarList (l : List Char) : List Char :=
  (collapseWsAux false ((l.map replaceAccent).filter fun c => !(c == ','))).map pyToLower

/-- `reemplazar` from areas_scrapper_v2.py. -/
def reemplazar (s : String) : String :=
  ⟨reemplazarList s.data⟩

/-- Characters untouched by every pass of `reemplazar`; the claim about its
output says exactly that all output characters are of this kind. -/
def CleanChar (c : Char) : Prop :=
  c ∉ tableAccents ∧ c ≠ ',' ∧ isPyWs c = false ∧ c ∉ upperChars


/-! ## Artifact discovery: year extraction from .rar link names

From `extract_data` in matriculados.py (lines 146-164):

```python
if href.endswith('.rar'):
    year = None
    for y in range(2007, 2100):
        if str(y) in href:
            year = y
            break
    if year: data.append({'year': year, 'url': href, ...})
```

and from `extract_data` in matriculados_linux.py (lines 165-179):

```python
if href.endswith('.rar'):
    year = ''.join(filter(str.isdigit, href))
    if len(year) >= 4:
        year = int(year[:4])
        data.append({'year': year, 'url': href, ...})
```
-/

/-- Substring occurrence, the semantics of Python's `in` on strings. -/
def containsSub (needle haystack : List Char) : Bool :=
  haystack.tails.any fun t => needle.isPrefixOf t

/-- Python `href.endswith('.rar')`. -/
def endsWithRar (h : String) : Bool :=
  ".rar".data.isSuffixOf h.data

/-- Year derivation of matriculados.py: the first `y` in `range(2007, 2100)`
whose decimal string occurs in the link. -/
def extractYear (href : String) : Option Nat :=
  (List.range' 2007 93).find? fun y => containsSub (Nat.repr y).data href.data

/-- Year derivation of matriculados_linux.py: concatenate every digit
character of the link and read the first four as an integer. -/
def extractYearLinux (href : String) : Option Nat :=
  let digits := href.data.filter Char.isDigit
  if digits.length ≥ 4 then some (digitsToNat (digits.take 4)) else none

/-- Discovery of matriculados.py applied to the `.rar` links of the index
page: keep links ending in `.rar` that yield a year. -/
def extract_data (hrefs : List String) : List (Nat × String) :=
  hrefs.filterMap fun h =>
    if endsWithRar h then (extractYear h).map (fun y => (y, h)) else none

/-- Discovery of matriculados_linux.py. -/
def extract_data_linux (hrefs : List String) : List (Nat × String) :=
  hrefs.filterMap fun h =>
    if endsWithRar h then (extractYearLinux h).map (fun y => (y, h)) else none

/-! ## Chunked table reader of matriculados.py (lines 264-293)

```python
with open(filename, 'r', encoding='utf-8') as f:
    columns = f.readline().strip().split(';')
    columns.extend(['year', 'preprocessed_at', 'processed_at'])
    while True:
        rows = []
        for _ in range(chunksize):
            line = f.readline()
            if not line: break
            values = line.strip().split(';')
            values.extend([year, preprocessed_at, datetime.now()])
            row_dict = dict(zip(columns, values))
            rows.append(row_dict)
        if not rows: break
        data_df.extend(rows)
```

The file is modelled as its list of lines (without trailing newlines); the
per-row `datetime.now()` clock is an oracle `tau` from the global data-line
index to a timestamp.
-/

/-- Cell values occurring in a row record: strings from the file, the
integer year, and datetime objects (identified by an abstract tick). -/
inductive Val where
  | s (x : String)
  | i (n : Nat)
  | t (ts : Nat)
deriving DecidableEq, Repr

/-- One row record: a Python dict, i.e. an insertion-ordered association
list with overwrite-on-repeated-key. -/
abbrev Row := List (String × Val)

/-- Python dict assignment `d[k] = v`: overwrite in place or append. -/
def dictInsert {α β : Type} [DecidableEq α] (d : List (α × β)) (k : α) (v : β) :
    List (α × β) :=
  if (d.map Prod.fst).contains k then
    d.map fun p => if p.1 = k then (k, v) else p
  else d ++ [(k, v)]

/-- Python `dict(pairs)`. -/
def pyDict {α β : Type} [DecidableEq α] (ps : List (α × β)) : List (α × β) :=
  ps.foldl (fun d p => dictInsert d p.1 p.2) []

/-- `dict(zip(columns, values))` for one data line: best-effort zipping
(`zip` truncates to the shorter list), with the three metadata values
appended as in the source. -/
def toRowVals (cols : List String) (year preTs procTs : Nat) (line : String) : Row :=
  pyDict (cols.zip ((splitSemis (pyStrip line)).map Val.s ++
    [Val.i year, Val.t preTs, Val.t procTs]))

/-- The inner `for _ in range(chunksize)` loop: read up to `b` lines
(stopping at end of file), one row per line; `i` is the global index of
the next data line, feeding the per-row clock `tau`. -/
def takeRows (cols : List String) (year preTs : Nat) (tau : Nat → Nat) :
    Nat → Nat → List String → List Row
  | 0, _, _ => []
  | _ + 1, _, [] => []
  | b + 1, i, ln :: rest =>
    toRowVals cols year preTs (tau i) ln :: takeRows cols year preTs tau b (i + 1) rest

/-- The outer `while True` loop: emit non-empty chunks until the file is
exhausted.  `fuel` bounds the number of iterations (any value at least the
number of remaining lines gives the loop's behaviour). -/
def readerBatches (cols : List String) (year preTs : Nat) (tau : Nat → Nat) (b : Nat) :
    Nat → Nat → List String → List (List Row)
  | 0, _, _ => []
  | fuel + 1, i, lines =>
    let rows := takeRows cols year preTs tau b i lines
    if rows.isEmpty then []
    else rows :: readerBatches cols year preTs tau b fuel (i + rows.length) (lines.drop b)

/-- The header columns derived from a file's lines: first line stripped and
split on ';', extended with the three metadata column names. -/
def headerCols (lines : List String) : List String :=
  splitSemis (pyStrip (lines.headD "")) ++ ["year", "preprocessed_at", "processed_at"]

/-- The chunked table reader of matriculados.py: header from the first
line, then batches of up to `b` rows from the remaining lines. -/
def readCSV (year preTs : Nat) (tau : Nat → Nat) (b : Nat) (lines : List String) :
    List (List Row) :=
  readerBatches (headerCols lines) year preTs tau b (lines.length + 1) 0 (lines.drop 1)

/-- The data rows of the file from line index `i` on: exactly one row
record per data line, in file order (the reference sequence for the
round-trip property). -/
def rowsFrom (cols : List String) (year preTs : Nat) (tau : Nat → Nat) :
    Nat → List String → List Row
  | _, [] => []
  | i, ln :: rest =>
    toRowVals cols year preTs (tau i) ln :: rowsFrom cols year preTs tau (i + 1) rest

/-! ## Schema reconciliation of matriculados_linux.py (lines 283-302)

```python
desired_columns = ['periodo', ..., 'forma_ingreso', 'year',
                   'preprocessed_at', 'processed_at']
existing_columns = [col for col in desired_columns if col in table_columns]
df2 = chunk[existing_columns]
```
-/

/-- A pandas data frame: ordered named columns with their cell values. -/
abbrev Frame := List (String × List Val)

/-- The fixed `desired_columns` list of matriculados_linux.py. -/
def desired_columns : List String :=
  ["periodo", "id_matricula", "codigo_unico", "mrun", "gen_alu",
   "fec_nac_alumno", "rango_edad", "anio_ing_carr_ori", "sem_ing_carr_ori",
   "anio_ing_carr_act", "sem_ing_carr_act", "tipo_instituto", "tipo_inst_2",
   "tipo_inst_3", "cod_institucion", "institución", "cod_sede", "nombre_sede",
   "cod_carrera", "carrera", "modalidad", "jornada", "version",
   "tipo_plan_carr", "dur_egreso_carrera", "dur_titulacion", "dur_carrera",
   "region_sede", "provincia_sede", "comuna_sede", "grado_academico",
   "nivel_carrera_det", "nivel_carrera", "requisito_ingreso",
   "vigencia_carrera", "formato_valores", "valor_matricula",
   "valor_mensualidad", "codigo_demre", "area_conocimiento", "area_carrera",
   "subarea_carrera", "area_carrera_generica", "area_profesion",
   "subarea_carrera_2", "acreditación_carrera", "acreditación_institucion",
   "acre_inst_desde_hasta", "año_acreditacion", "costo_p_titulacion",
   "costo_diploma", "forma_ingreso", "year", "preprocessed_at",
   "processed_at"]

/-- `[col for col in desired_columns if col in table_columns]`. -/
def existing_columns (table_columns : List String) : List String :=
  desired_columns.filter fun c => table_columns.contains c

/-- `chunk[cols]` in pandas: project a frame onto the named columns, in the
given order; `none` models the `KeyError` raised when a requested column is
absent. -/
def selectCols (chunk : Frame) : List String → Option Frame
  | [] => some []
  | c :: cs =>
    match assocGet chunk c, selectCols chunk cs with
    | some v, some rest => some ((c, v) :: rest)
    | _, _ => none

/-- The reconciliation step as coded: `df2 = chunk[existing_columns]` with
`existing_columns = desired_columns ∩ table_columns`. -/
def reconcile (table_columns : List String) (chunk : Frame) : Option Frame :=
  selectCols chunk (existing_columns table_columns)

/-- Modelled from the spec's wording of the step: "computes the
intersection of batch fields and destination columns" and projects the
batch onto it — i.e. keeps exactly the batch's own columns that exist in
the destination. -/
def reconcileSpec (table_columns : List String) (chunk : Frame) : Frame :=
  chunk.filter fun p => table_columns.contains p.1

/-! ## `calcular_fecha` from src/news_job/main.py (lines 29-70)

```python
def calcular_fecha(date):
    posted_day = None
    try:
        posted_day = datetime.strptime(date, "%d-%m-%Y").strftime("%Y-%m-%d %H:%M:%S")
        return posted_day
    except ValueError:
        pass
    days_match = re.match(r'hace (\d+) días?', date)
    ... (hours/mins/segundos/semanas/meses analogous; the second weeks and
    months regexes make the effective suffixes " seman" and " me")
    try:
        if months_match:   posted_day = datetime.now() - timedelta(days=30*meses)
        elif weeks_match:  posted_day = datetime.now() - timedelta(days=7*weeks)
        elif days_match:   posted_day = datetime.now() - timedelta(days=dias)
        elif hours_match:  posted_day = datetime.now() - timedelta(hours=horas)
        elif minutes_match:posted_day = datetime.now() - timedelta(minutes=minutos)
        elif seconds_match:posted_day = datetime.now() - timedelta(seconds=segundos)
    except ValueError as e: ...
    return posted_day.strftime("%Y-%m-%d %H:%M:%S") if isinstance(posted_day, datetime) else None
```

Only `ValueError` is caught: `timedelta` raises `OverflowError` when its
normalised day count exceeds 999 999 999, and datetime subtraction raises
`OverflowError` when the result falls outside `[datetime.min, datetime.max]`
— both escape the function.  `datetime.now()` is modelled as a parameter:
whole seconds since 0001-01-01 00:00:00 (the proleptic Gregorian calendar
of the `datetime` module); `strftime` is modelled at second granularity
with zero-padded fields.
-/

/-- The only exception the modelled code can raise. -/
inductive PyExn where
  | overflow
deriving DecidableEq, Repr

/-- `datetime.max` in whole seconds since 0001-01-01 00:00:00: the years
1..9999 hold 3 652 059 days. -/
def maxDT : Nat := 3652059 * 86400 - 1

/-- Gregorian leap-year rule (as used by Python's `datetime`). -/
def isLeap (y : Nat) : Bool :=
  y % 4 == 0 && (y % 100 != 0 || y % 400 == 0)

/-- Days in a calendar year. -/
def daysInYear (y : Nat) : Nat :=
  if isLeap y then 366 else 365

/-- Month lengths of a calendar year. -/
def monthLengths (y : Nat) : List Nat :=
  [31, if isLeap y then 29 else 28, 31, 30, 31, 30, 31, 31, 30, 31, 30, 31]

/-- Walk forward one year at a time from year `y`, consuming days. -/
def yearWalk : Nat → Nat → Nat → Nat × Nat
  | 0, y, r => (y, r)
  | fuel + 1, y, r =>
    if r < daysInYear y then (y, r) else yearWalk fuel (y + 1) (r - daysInYear y)

/-- Walk the month-length table, converting a day-of-year into
(month, day-of-month). -/
def monthWalk : List Nat → Nat → Nat → Nat × Nat
  | [], m, r => (m, r + 1)
  | len :: rest, m, r =>
    if r < len then (m, r + 1) else monthWalk rest (m + 1) (r - len)

/-- Civil date (year, month, day) of a day count since 0001-01-01. -/
def civilFromDays (z : Nat) : Nat × Nat × Nat :=
  let yr := yearWalk 9998 1 z
  let md := monthWalk (monthLengths yr.1) 1 yr.2
  (yr.1, md.1, md.2)

/-- Total days in the `fuel + 1` consecutive years starting at `y`. -/
def sumDaysFrom (y : Nat) : Nat → Nat
  | 0 => daysInYear y
  | fuel + 1 => daysInYear y + sumDaysFrom (y + 1) fuel

/-- Two-digit zero-padded decimal. -/
def pad2 (n : Nat) : List Char :=
  [Nat.digitChar (n / 10 % 10), Nat.digitChar (n % 10)]

/-- Four-digit zero-padded decimal. -/
def pad4 (n : Nat) : List Char :=
  [Nat.digitChar (n / 1000 % 10), Nat.digitChar (n / 100 % 10),
   Nat.digitChar (n / 10 % 10), Nat.digitChar (n % 10)]

/-- `strftime("%Y-%m-%d %H:%M:%S")` on a broken-down timestamp. -/
def fmtTimestamp (y mo d h mi s : Nat) : String :=
  ⟨pad4 y ++ '-' :: pad2 mo ++ '-' :: pad2 d ++ ' ' :: pad2 h ++
    ':' :: pad2 mi ++ ':' :: pad2 s⟩

/-- Does a string have the shape `YYYY-MM-DD HH:MM:SS`? -/
def isTimestampFormat (s : String) : Bool :=
  match s.data with
  | [y1, y2, y3, y4, '-', m1, m2, '-', d1, d2, ' ', h1, h2, ':', n1, n2, ':', s1, s2] =>
    y1.isDigit && y2.isDigit && y3.isDigit && y4.isDigit &&
    m1.isDigit && m2.isDigit && d1.isDigit && d2.isDigit &&
    h1.isDigit && h2.isDigit && n1.isDigit && n2.isDigit &&
    s1.isDigit && s2.isDigit
  | _ => false

/-- `strftime("%Y-%m-%d %H:%M:%S")` of an epoch-second count. -/
def fmtEpoch (t : Nat) : String :=
  let c := civilFromDays (t / 86400)
  fmtTimestamp c.1 c.2.1 c.2.2 (t % 86400 / 3600) (t % 3600 / 60) (t % 60)

/-- Two decimal digits whose value lies in `[lo, hi]` (the two-digit
alternatives of the `_strptime` regexes for `%d` and `%m`). -/
def parse2 (lo hi : Nat) (cs : List Char) : Option (Nat × List Char) :=
  match cs with
  | c1 :: c2 :: rest =>
    if c1.isDigit && c2.isDigit then
      let v := 10 * digitVal c1 + digitVal c2
      if lo ≤ v ∧ v ≤ hi then some (v, rest) else none
    else none
  | _ => none

/-- One decimal digit `1..9` (the one-digit alternative of `%d`/`%m`). -/
def parse1 (cs : List Char) : Option (Nat × List Char) :=
  match cs with
  | c :: rest =>
    if c.isDigit && decide (1 ≤ digitVal c) then some (digitVal c, rest) else none
  | _ => none

/-- Exactly four decimal digits (`%Y`). -/
def parse4Y (cs : List Char) : Option (Nat × List Char) :=
  match cs with
  | a :: b :: c :: d :: rest =>
    if a.isDigit && b.isDigit && c.isDigit && d.isDigit then
      some (digitsToNat [a, b, c, d], rest)
    else none
  | _ => none

/-- A literal `'-'`. -/
def expectDash (cs : List Char) : Option (List Char) :=
  match cs with
  | '-' :: rest => some rest
  | _ => none

/-- After the day field: `-%m-%Y` with the regex's two-digit-first
backtracking for the month, requiring the whole string consumed. -/
def parseAfterDay (d : Nat) (cs : List Char) : Option (Nat × Nat × Nat) :=
  match expectDash cs with
  | none => none
  | some cs1 =>
    let tryYear := fun (m : Nat) (cs2 : List Char) =>
      match expectDash cs2 with
      | none => none
      | some cs3 =>
        match parse4Y cs3 with
        | some (y, []) => some (d, m, y)
        | _ => none
    match parse2 1 12 cs1 with
    | some (m, cs2) =>
      match tryYear m cs2 with
      | some r => some r
      | none =>
        match parse1 cs1 with
        | some (m2, cs4) => tryYear m2 cs4
        | none => none
    | none =>
      match parse1 cs1 with
      | some (m2, cs4) => tryYear m2 cs4
      | none => none

/-- The `%d-%m-%Y` regex match with backtracking on the day width. -/
def parseDMY (cs : List Char) : Option (Nat × Nat × Nat) :=
  match parse2 1 31 cs with
  | some (d, rest) =>
    match parseAfterDay d rest with
    | some r => some r
    | none =>
      match parse1 cs with
      | some (d2, rest2) => parseAfterDay d2 rest2
      | none => none
  | none =>
    match parse1 cs with
    | some (d2, rest2) => parseAfterDay d2 rest2
    | none => none

/-- Days in month `m` of year `y` (1-based). -/
def daysInMonth (y m : Nat) : Nat :=
  (monthLengths y).getD (m - 1) 0

/-- `datetime.strptime(date, "%d-%m-%Y")`: the regex match followed by the
`datetime` constructor's range check (both failures raise `ValueError`,
which the source catches). -/
def strptimeDMY (s : String) : Option (Nat × Nat × Nat) :=
  match parseDMY s.data with
  | some (d, m, y) =>
    if 1 ≤ y ∧ d ≤ daysInMonth y m then some (d, m, y) else none
  | none => none

/-- `re.match(r'hace (\d+) <unit>…', date)`: literal `"hace "`, a maximal
non-empty digit run, then the unit suffix (trailing text unconstrained,
as `re.match` only anchors the start). -/
def matchHace (suffix : List Char) (cs : List Char) : Option Nat :=
  if cs.take 5 = "hace ".data then
    let rest := cs.drop 5
    let ds := rest.takeWhile Char.isDigit
    if ds.isEmpty then none
    else if suffix.isPrefixOf (rest.drop ds.length) then some (digitsToNat ds)
    else none
  else none

/-- `timedelta(days=d)`: raises `OverflowError` beyond 999 999 999 days;
otherwise the delta in seconds. -/
def timedeltaDays (d : Nat) : Except PyExn Nat :=
  if d > 999999999 then .error .overflow else .ok (d * 86400)

/-- `timedelta(hours/minutes/seconds=…)` via its normalised day count. -/
def timedeltaSeconds (sec : Nat) : Except PyExn Nat :=
  if sec / 86400 > 999999999 then .error .overflow else .ok sec

/-- `datetime - timedelta` for a non-negative delta: raises
`OverflowError` below `datetime.min`. -/
def dtSub (now delta : Nat) : Except PyExn Nat :=
  if delta > now then .error .overflow else .ok (now - delta)

/-- The relative-offset branch: which `hace N …` pattern matches (in the
source's if-chain order months, weeks, days, hours, minutes, seconds) and
the corresponding `timedelta` construction. -/
def haceOffset (cs : List Char) : Option (Except PyExn Nat) :=
  match matchHace " me".data cs with
  | some n => some (timedeltaDays (30 * n))
  | none =>
  match matchHace " seman".data cs with
  | some n => some (timedeltaDays (7 * n))
  | none =>
  match matchHace " día".data cs with
  | some n => some (timedeltaDays n)
  | none =>
  match matchHace " hora".data cs with
  | some n => some (timedeltaSeconds (n * 3600))
  | none =>
  match matchHace " min".data cs with
  | some n => some (timedeltaSeconds (n * 60))
  | none =>
  match matchHace " segundo".data cs with
  | some n => some (timedeltaSeconds n)
  | none => none

/-- `calcular_fecha` from news_job/main.py, with `datetime.now()` passed
in as `now` (whole seconds since 0001-01-01). -/
def calcular_fecha (now : Nat) (date : String) : Except PyExn (Option String) :=
  match strptimeDMY date with
  | some dmy => .ok (some (fmtTimestamp dmy.2.2 dmy.2.1 dmy.1 0 0 0))
  | none =>
    match haceOffset date.data with
    | none => .ok none
    | some esec =>
      match esec with
      | .error e => .error e
      | .ok sec =>
        match dtSub now sec with
        | .error e => .error e
        | .ok t => .ok (some (fmtEpoch t))

/-- The amended C9 property as a decidable check: a run of
`calcular_fecha` either returns `None`, returns a string in the
`%Y-%m-%d %H:%M:%S` shape, or raises `OverflowError` — and in the last
case only because a matched `hace N …` offset exceeds the `timedelta`
bound or reaches below `datetime.min`. -/
def calcularFechaCheck (now : Nat) (date : String) : Bool :=
  match calcular_fecha now date with
  | .ok none => true
  | .ok (some s) => isTimestampFormat s
  | .error .overflow =>
    match haceOffset date.data with
    | some (.error .overflow) => true
    | some (.ok sec) => decide (sec > now)
    | none => false

/-! ## News dedup-by-URL from src/news_job/main.py (lines 104-160)

```python
for result in results["news_results"]:
    result["posted_day"] = calcular_fecha(result["date"])
    ...
    noticia_existente = session.query(Noticias).filter_by(link_noticia=link_noticia).first()
    if noticia_existente:
        noticias_existentes += 1
        continue
    nueva_noticia = Noticias(...)
    noticias_a_insertar.append(nueva_noticia)
try:
    session.bulk_save_objects(noticias_a_insertar)
    session.commit()
    noticias_agregadas = len(noticias_a_insertar)
except IntegrityError:
    session.rollback()
```

The committed `noticias` table is immutable during the loop (the pending
objects are only inserted by the final bulk save), so the existence check
always runs against the table as of the start of the run.
-/

/-- One search-API result as consumed by the news job. -/
structure NewsResult where
  title : String
  date : String
  link : String
  snippet : String
  thumbnail : String
deriving DecidableEq, Repr

/-- One row of the `noticias` table. -/
structure Noticia where
  titulo : String
  contenido : String
  fecha_publicacion : Option String
  link_noticia : String
  imagen_noticia : String
deriving DecidableEq, Repr

/-- Build the `Noticias(...)` row for a result; `calcular_fecha` runs
first and its exception (if any) propagates. -/
def noticiaOf (now : Nat) (r : NewsResult) : Except PyExn Noticia :=
  match calcular_fecha now r.date with
  | .error e => .error e
  | .ok fecha =>
    .ok { titulo := r.title, contenido := r.snippet, fecha_publicacion := fecha,
          link_noticia := r.link, imagen_noticia := r.thumbnail }

/-- The per-result loop: counts results whose URL already exists in the
committed table and collects the new rows to insert, in order. -/
def almacenarLoop (now : Nat) (table : List Noticia) :
    List NewsResult → Nat → List Noticia → Except PyExn (Nat × List Noticia)
  | [], ex, acc => .ok (ex, acc)
  | r :: rest, ex, acc =>
    match noticiaOf now r with
    | .error e => .error e
    | .ok nueva =>
      if (table.map Noticia.link_noticia).contains r.link then
        almacenarLoop now table rest (ex + 1) acc
      else
        almacenarLoop now table rest ex (acc ++ [nueva])

/-- `almacenar_noticias_en_db`: returns (noticias agregadas, noticias
existentes, final table).  `insertOk` is the oracle for the bulk insert:
on `IntegrityError` the session rolls back and `agregadas` stays 0. -/
def almacenar_noticias_en_db (now : Nat) (table : List Noticia)
    (results : List NewsResult) (insertOk : Bool) :
    Except PyExn (Nat × Nat × List Noticia) :=
  match almacenarLoop now table results 0 [] with
  | .error e => .error e
  | .ok exAcc =>
    if insertOk then .ok (exAcc.2.length, exAcc.1, table ++ exAcc.2)
    else .ok (0, exAcc.1, table)

/-- Concrete sample data for the news-job witness: a table holding URL
"u1". -/
def newsTable1 : List Noticia :=
  [{ titulo := "t1", contenido := "c1", fecha_publicacion := none,
     link_noticia := "u1", imagen_noticia := "" }]

/-- Two search results: one whose URL already exists, one new. -/
def newsResults1 : List NewsResult :=
  [{ title := "a", date := "x", link := "u1", snippet := "s", thumbnail := "" },
   { title := "b", date := "y", link := "u2", snippet := "s2", thumbnail := "" }]

/-- The table after the sample run: only the new URL was appended. -/
def newsFinal1 : List Noticia :=
  newsTable1 ++ [{ titulo := "b", contenido := "s2", fecha_publicacion := none,
                   link_noticia := "u2", imagen_noticia := "" }]

/-! ## Per-artifact orchestration of matriculados_linux.py (lines 189-340)
and matriculados.py (lines 174-247)

The linux variant, per discovered artifact: download to a temp file,
check/run the extraction subprocess, find the CSV, query `jobs_log` for the
CSV filename; if present insert a redundant "skip" row and remove the temp
file; otherwise read the CSV in chunks — each chunk gets the three metadata
columns, is renamed, reconciled against the destination columns and
appended (append errors are caught per chunk and logged only) — then a
`jobs_log` row is inserted and the temp file removed.  An exception while
reading (including a reconciliation `KeyError`) removes the temp file and
moves on without the ledger write.

External outcomes (HTTP, WinRAR presence, subprocess exit, SQL errors,
`pd.read_csv` behaviour) are oracle fields of `LinuxEnv`/`WinEnv`.
-/

/-- The `matriculas_rename` dictionary (old column name, new name). -/
def matriculasRename : List (String × String) :=
  [("cat_periodo", "periodo"), ("id", "id_matricula"),
   ("codigo_unico", "codigo_unico"), ("mrun", "mrun"), ("gen_alu", "gen_alu"),
   ("fec_nac_alu", "fec_nac_alumno"), ("rango_edad", "rango_edad"),
   ("anio_ing_carr_ori", "anio_ing_carr_ori"),
   ("sem_ing_carr_ori", "sem_ing_carr_ori"),
   ("anio_ing_carr_act", "anio_ing_carr_act"),
   ("sem_ing_carr_act", "sem_ing_carr_act"), ("tipo_inst_1", "tipo_instituto"),
   ("tipo_inst_2", "tipo_inst_2"), ("tipo_inst_3", "tipo_inst_3"),
   ("cod_inst", "cod_institucion"), ("nomb_inst", "institución"),
   ("cod_sede", "cod_sede"), ("nomb_sede", "nombre_sede"),
   ("cod_carrera", "cod_carrera"), ("nomb_carrera", "carrera"),
   ("modalidad", "modalidad"), ("jornada", "jornada"), ("version", "version"),
   ("tipo_plan_carr", "tipo_plan_carr"),
   ("dur_estudio_carr", "dur_egreso_carrera"),
   ("dur_proceso_tit", "dur_titulacion"), ("dur_total_carr", "dur_carrera"),
   ("region_sede", "region_sede"), ("provincia_sede", "provincia_sede"),
   ("comuna_sede", "comuna_sede"), ("nivel_global", "grado_academico"),
   ("nivel_carrera_1", "nivel_carrera_det"),
   ("nivel_carrera_2", "nivel_carrera"),
   ("requisito_ingreso", "requisito_ingreso"),
   ("vigencia_carrera", "vigencia_carrera"),
   ("formato_valores", "formato_valores"),
   ("valor_matricula", "valor_matricula"),
   ("valor_arancel", "valor_mensualidad"), ("codigo_demre", "codigo_demre"),
   ("area_conocimiento", "area_conocimiento"),
   ("cine_f_97_area", "area_carrera"),
   ("cine_f_97_subarea", "subarea_carrera"),
   ("area_carrera_generica", "area_carrera_generica"),
   ("cine_f_13_area", "area_profesion"),
   ("cine_f_13_subarea", "subarea_carrera_2"),
   ("acreditada_carr", "acreditación_carrera"),
   ("acreditada_inst", "acreditación_institucion"),
   ("acre_inst_desde_hasta", "acre_inst_desde_hasta"),
   ("acre_inst_anio", "año_acreditacion"),
   ("costo_proceso_titulacion", "costo_p_titulacion"),
   ("costo_obtencion_titulo_diploma", "costo_diploma"),
   ("forma_ingreso", "forma_ingreso")]

/-- Row count of a frame (length of its first column). -/
def frameRows (f : Frame) : Nat := (f.headD ("", [])).2.length

/-- `chunk[c] = v` in pandas: overwrite the column or append it, with the
scalar broadcast over the rows. -/
def setCol (f : Frame) (c : String) (v : Val) : Frame :=
  let col := List.replicate (frameRows f) v
  if (f.map Prod.fst).contains c then
    f.map fun p => if p.1 = c then (c, col) else p
  else f ++ [(c, col)]

/-- `chunk.rename(columns=matriculas_rename)`. -/
def renameCols (f : Frame) : Frame :=
  f.map fun p => ((assocGet matriculasRename p.1).getD p.1, p.2)

/-- The per-chunk transformation of matriculados_linux.py lines 275-280:
add year / preprocessed_at / processed_at, then rename. -/
def transformChunk (year preAt procAt : Nat) (chunk : Frame) : Frame :=
  renameCols (setCol (setCol (setCol chunk "year" (Val.i year))
    "preprocessed_at" (Val.t preAt)) "processed_at" (Val.t procAt))

/-- Oracle record for one artifact of the linux job: the outcomes of its
external interactions.  `readErrorAfter = some k` means the `pd.read_csv`
iteration raises after `k` chunks were fully handled; `appendOk i` is the
outcome of the `to_sql` call for chunk `i` (failures are caught and
logged); `chunkTs i` is the `datetime.now()` tick for chunk `i`. -/
structure LinuxEnv where
  url : String
  year : Nat
  preAt : Nat
  downloadOk : Bool
  winrarOk : Bool
  extractOk : Bool
  csvFile : Option String
  readErrorAfter : Option Nat
  chunks : List Frame
  chunkTs : Nat → Nat
  appendOk : Nat → Bool
  skipInsertOk : Bool
  doneInsertOk : Bool

/-- Database state: the `jobs_log` ledger (job name, file name) and the
frames appended to the destination table. -/
structure DBSt where
  jobsLog : List (String × String)
  dest : List Frame
deriving DecidableEq, Repr

/-- Filesystem/network effects of processing one artifact. -/
structure ArtifactTrace where
  downloaded : Bool
  tmpCreated : Bool
  tmpRemoved : Bool
deriving DecidableEq, Repr

/-- The chunk loop (lines 273-311): each chunk is transformed, reconciled
and appended (per-chunk append failures only logged); a reconciliation
`KeyError` aborts the loop.  Returns the appended frames and the abort
flag. -/
def loadChunks (tableCols : List String) (year preAt : Nat) (ts : Nat → Nat)
    (apOk : Nat → Bool) : Nat → List Frame → List Frame × Bool
  | _, [] => ([], false)
  | i, c :: cs =>
    match reconcile tableCols (transformChunk year preAt (ts i) c) with
    | none => ([], true)
    | some df2 =>
      let rest := loadChunks tableCols year preAt ts apOk (i + 1) cs
      ((if apOk i then [df2] else []) ++ rest.1, rest.2)

/-- One iteration of the artifact loop of matriculados_linux.py. -/
def processArtifactLinux (tableCols : List String) (env : LinuxEnv) (s : DBSt) :
    DBSt × ArtifactTrace :=
  if env.downloadOk = false then (s, ⟨false, false, false⟩)
  else if env.winrarOk = false then (s, ⟨true, true, true⟩)
  else if env.extractOk = false then (s, ⟨true, true, true⟩)
  else
    match env.csvFile with
    | none => (s, ⟨true, true, true⟩)
    | some csv =>
      if csv ∈ s.jobsLog.map Prod.snd then
        let s2 := if env.skipInsertOk then
          { s with jobsLog := s.jobsLog ++ [("enrolled_job", csv)] } else s
        (s2, ⟨true, true, true⟩)
      else
        let k := env.readErrorAfter.getD env.chunks.length
        let lc := loadChunks tableCols env.year env.preAt env.chunkTs
          env.appendOk 0 (env.chunks.take k)
        let s2 := { s with dest := s.dest ++ lc.1 }
        if lc.2 || env.readErrorAfter.isSome then (s2, ⟨true, true, true⟩)
        else
          let s3 := if env.doneInsertOk then
            { s2 with jobsLog := s2.jobsLog ++ [("enrolled_job", csv)] } else s2
          (s3, ⟨true, true, true⟩)

/-- The artifact loop over all discovered items. -/
def runLinux (tableCols : List String) : List LinuxEnv → DBSt → DBSt × List ArtifactTrace
  | [], s => (s, [])
  | env :: rest, s =>
    let r1 := processArtifactLinux tableCols env s
    let r2 := runLinux tableCols rest r1.1
    (r2.1, r1.2 :: r2.2)

/-- Oracle record for one artifact of the windows variant
(matriculados.py). -/
structure WinEnv where
  url : String
  year : Nat
  preAt : Nat
  downloadOk : Bool
  saveOk : Bool
  extractOk : Bool
  csvFile : Option String
  skipInsertOk : Bool
deriving DecidableEq, Repr

/-- State of the windows variant's first phase: the ledger, the `.rar`
files saved to the working directory (matriculados.py never deletes
them), and the `files` work list. -/
structure WinSt where
  jobsLog : List (String × String)
  savedFiles : List String
  files : List (String × Nat × Nat)
deriving DecidableEq, Repr

/-- One iteration of the first loop of matriculados.py (lines 174-247):
download, save `f"{year}.rar"` to the working directory, extract (on
subprocess failure: log and continue — the saved archive is not removed),
find the CSV, check the ledger (inserting a redundant skip row when
found), otherwise queue the file for processing. -/
def processWinItem (env : WinEnv) (s : WinSt) : WinSt :=
  if env.downloadOk = false then s
  else if env.saveOk = false then s
  else
    let s1 := { s with savedFiles := s.savedFiles ++ [Nat.repr env.year ++ ".rar"] }
    if env.extractOk = false then s1
    else
      match env.csvFile with
      | none => s1
      | some csv =>
        if csv ∈ s1.jobsLog.map Prod.snd then
          if env.skipInsertOk then
            { s1 with jobsLog := s1.jobsLog ++ [("enrolled_job", csv)] }
          else s1
        else { s1 with files := s1.files ++ [(csv, env.year, env.preAt)] }

/-- The first phase of matriculados.py processes only `data[:1]`. -/
def winPhase1 (envs : List WinEnv) (s : WinSt) : WinSt :=
  (envs.take 1).foldl (fun st env => processWinItem env st) s

/-- Concrete artifact for the C1 counterexample: everything succeeds and
the CSV filename is already ledgered. -/
def c1Env : LinuxEnv :=
  { url := "http://x/2023.rar", year := 2023, preAt := 5, downloadOk := true,
    winrarOk := true, extractOk := true, csvFile := some "2023.csv",
    readErrorAfter := none, chunks := [], chunkTs := fun _ => 0,
    appendOk := fun _ => true, skipInsertOk := true, doneInsertOk := true }

/-- A database state whose ledger already records "2023.csv". -/
def dbWith2023 : DBSt := { jobsLog := [("enrolled_job", "2023.csv")], dest := [] }

/-- Concrete artifact for C2: two one-column chunks, the second
`to_sql` call fails, everything else succeeds, CSV not yet ledgered. -/
def c2Env : LinuxEnv :=
  { url := "http://x/2024.rar", year := 2024, preAt := 3, downloadOk := true,
    winrarOk := true, extractOk := true, csvFile := some "2024.csv",
    readErrorAfter := none,
    chunks := [[("periodo", [Val.s "a"])], [("periodo", [Val.s "b"])]],
    chunkTs := fun i => i, appendOk := fun i => i == 0,
    skipInsertOk := true, doneInsertOk := true }

/-- The empty database state. -/
def dbEmpty : DBSt := { jobsLog := [], dest := [] }

/-- Concrete windows artifact for C4: extraction subprocess fails. -/
def wEnvFail : WinEnv :=
  { url := "u", year := 2023, preAt := 1, downloadOk := true, saveOk := true,
    extractOk := false, csvFile := none, skipInsertOk := true }

/-- Concrete linux artifact for C4: extraction subprocess fails. -/
def c4EnvL : LinuxEnv :=
  { c1Env with extractOk := false }

/-- The empty windows state. -/
def winEmpty : WinSt := { jobsLog := [], savedFiles := [], files := [] }

/-! ## General lemmas about `assocGet` -/

theorem assocGet_mem {α β : Type} [DecidableEq α] {t : List (α × β)} {c : α} {v : β}
    (h : assocGet t c = some v) : (c, v) ∈ t := by
  induction t with
  | nil => simp [assocGet] at h
  | cons p rest ih =>
    rcases p with ⟨a, b⟩
    by_cases hc : c = a
    · subst hc
      simp only [assocGet] at h
      simp at h
      subst h
      exact List.mem_cons_self _ _
    · simp only [assocGet, if_neg hc] at h
      exact List.mem_cons_of_mem _ (ih h)

theorem assocGet_eq_none {α β : Type} [DecidableEq α] {t : List (α × β)} {c : α}
    (h : ∀ p ∈ t, c ≠ p.1) : assocGet t c = none := by
  induction t with
  | nil => rfl
  | cons p rest ih =>
    simp only [assocGet, if_neg (h p (List.mem_cons_self p rest))]
    exact ih fun q hq => h q (List.mem_cons_of_mem p hq)

theorem assocGet_isSome_of_key {α β : Type} [DecidableEq α] {t : List (α × β)} {c : α}
    (h : ∃ p ∈ t, c = p.1) : (assocGet t c).isSome := by
  induction t with
  | nil => rcases h with ⟨p, hp, _⟩; simp at hp
  | cons p rest ih =>
    by_cases hc : c = p.1
    · simp [assocGet, hc]
    · rcases h with ⟨q, hq, hcq⟩
      rcases List.mem_cons.mp hq with rfl | hq2
      · exact absurd hcq hc
      · simp only [assocGet, if_neg hc]
        exact ih ⟨q, hq2, hcq⟩

/-! ## Character-level lemmas for `reemplazar` -/

theorem map_eq_self_of_fix {α : Type} {f : α → α} {l : List α}
    (h : ∀ c ∈ l, f c = c) : l.map f = l := by
  induction l with
  | nil => rfl
  | cons a as ih =>
    simp only [List.map_cons, h a (List.mem_cons_self a as)]
    rw [ih fun c hc => h c (List.mem_cons_of_mem a hc)]

theorem replaceAccent_not_accent (c : Char) : replaceAccent c ∉ tableAccents := by
  rcases hg : assocGet accentTable c with _ | v
  · have hup : c ∉ tableAccents := by
      intro hmem
      have hkey : ∃ p ∈ accentTable, c = p.1 := by
        have hsub : ∀ u ∈ tableAccents, ∃ p ∈ accentTable, u = p.1 := by decide
        exact hsub c hmem
      have hs := assocGet_isSome_of_key hkey
      rw [hg] at hs
      simp at hs
    simpa [replaceAccent, hg] using hup
  · have hmem := assocGet_mem hg
    have hall : ∀ p ∈ accentTable, p.2 ∉ tableAccents := by decide
    simpa [replaceAccent, hg] using hall _ hmem

theorem replaceAccent_fix {c : Char} (h : c ∉ tableAccents) : replaceAccent c = c := by
  rcases hg : assocGet accentTable c with _ | v
  · simp [replaceAccent, hg]
  · have hkeys : ∀ p ∈ accentTable, p.1 ∈ tableAccents := by decide
    exact absurd (hkeys _ (assocGet_mem hg)) (by simpa using h)

theorem pyToLower_not_upper (c : Char) : pyToLower c ∉ upperChars := by
  rcases hg : assocGet lowerTable c with _ | v
  · have hup : c ∉ upperChars := by
      intro hmem
      rcases List.mem_map.mp hmem with ⟨p, hp, hpc⟩
      have hs := assocGet_isSome_of_key (t := lowerTable) ⟨p, hp, hpc.symm⟩
      rw [hg] at hs
      simp at hs
    simpa [pyToLower, hg] using hup
  · have hmem := assocGet_mem hg
    have hall : ∀ p ∈ lowerTable, p.2 ∉ upperChars := by decide
    simpa [pyToLower, hg] using hall _ hmem

theorem pyToLower_fix {c : Char} (h : c ∉ upperChars) : pyToLower c = c := by
  rcases hg : assocGet lowerTable c with _ | v
  · simp [pyToLower, hg]
  · exact absurd (List.mem_map_of_mem Prod.fst (assocGet_mem hg)) h

theorem pyToLower_ws (c : Char) : isPyWs (pyToLower c) = isPyWs c := by
  rcases hg : assocGet lowerTable c with _ | v
  · simp [pyToLower, hg]
  · have hmem := assocGet_mem hg
    have hall : ∀ p ∈ lowerTable, isPyWs p.1 = false ∧ isPyWs p.2 = false := by decide
    have h1 := (hall _ hmem).1
    have h2 := (hall _ hmem).2
    simp only [pyToLower, hg, Option.getD_some]
    rw [h1, h2]

theorem pyToLower_comma {c : Char} (h : c ≠ ',') : pyToLower c ≠ ',' := by
  rcases hg : assocGet lowerTable c with _ | v
  · simpa [pyToLower, hg] using h
  · have hall : ∀ p ∈ lowerTable, p.2 ≠ ',' := by decide
    simpa [pyToLower, hg] using hall _ (assocGet_mem hg)

theorem pyToLower_not_accent {c : Char} (h : c ∉ tableAccents) :
    pyToLower c ∉ tableAccents := by
  rcases hg : assocGet lowerTable c with _ | v
  · simpa [pyToLower, hg] using h
  · have hall : ∀ p ∈ lowerTable, p.1 ∈ tableAccents ∨ p.2 ∉ tableAccents := by decide
    have hmem := assocGet_mem hg
    rcases hall _ hmem with hk | hv
    · exact absurd hk h
    · simpa [pyToLower, hg] using hv

theorem collapseWsAux_mem {l : List Char} :
    ∀ {prev : Bool}, ∀ c ∈ collapseWsAux prev l, c = '-' ∨ (c ∈ l ∧ isPyWs c = false) := by
  induction l with
  | nil => intro prev c hc; simp [collapseWsAux] at hc
  | cons a as ih =>
    intro prev c hc
    by_cases ha : isPyWs a = true
    · rw [collapseWsAux, if_pos ha] at hc
      cases prev with
      | false =>
        rw [if_neg Bool.false_ne_true] at hc
        rcases List.mem_cons.mp hc with h | h
        · exact Or.inl h
        · rcases ih c h with h2 | h2
          · exact Or.inl h2
          · exact Or.inr ⟨List.mem_cons_of_mem a h2.1, h2.2⟩
      | true =>
        rw [if_pos rfl] at hc
        rcases ih c hc with h2 | h2
        · exact Or.inl h2
        · exact Or.inr ⟨List.mem_cons_of_mem a h2.1, h2.2⟩
    · rw [collapseWsAux, if_neg ha] at hc
      rcases List.mem_cons.mp hc with h | h
      · subst h
        exact Or.inr ⟨List.mem_cons_self c as, by simpa using ha⟩
      · rcases ih c h with h2 | h2
        · exact Or.inl h2
        · exact Or.inr ⟨List.mem_cons_of_mem a h2.1, h2.2⟩

theorem collapseWsAux_id {l : List Char} (h : ∀ c ∈ l, isPyWs c = false) :
    ∀ prev, collapseWsAux prev l = l := by
  induction l with
  | nil => intro prev; rfl
  | cons a as ih =>
    intro prev
    have ha : isPyWs a = false := h a (List.mem_cons_self a as)
    rw [collapseWsAux, if_neg (by simp [ha])]
    rw [ih fun c hc => h c (List.mem_cons_of_mem a hc)]

theorem reemplazarList_clean {l : List Char} : ∀ c ∈ reemplazarList l, CleanChar c := by
  intro c hc
  unfold reemplazarList at hc
  rcases List.mem_map.mp hc with ⟨b, hb, rfl⟩
  rcases collapseWsAux_mem b hb with rfl | ⟨hbY, hbws⟩
  · exact ⟨by decide, by decide, by decide, by decide⟩
  · have hbf := List.mem_filter.mp hbY
    have hbcomma : b ≠ ',' := by
      have h2 := hbf.2
      simp at h2
      exact h2
    rcases List.mem_map.mp hbf.1 with ⟨a, _, rfl⟩
    have hbacc : replaceAccent a ∉ tableAccents := replaceAccent_not_accent a
    refine ⟨pyToLower_not_accent hbacc, pyToLower_comma hbcomma, ?_, pyToLower_not_upper _⟩
    rw [pyToLower_ws]
    exact hbws

theorem reemplazarList_fix {l : List Char} (h : ∀ c ∈ l, CleanChar c) :
    reemplazarList l = l := by
  unfold reemplazarList
  rw [map_eq_self_of_fix fun c hc => replaceAccent_fix (h c hc).1]
  rw [List.filter_eq_self.mpr fun c hc => by simpa using (h c hc).2.1]
  rw [collapseWsAux_id (fun c hc => (h c hc).2.2.1) false]
  exact map_eq_self_of_fix fun c hc => pyToLower_fix (h c hc).2.2.2

theorem reemplazarList_idem (l : List Char) :
    reemplazarList (reemplazarList l) = reemplazarList l :=
  reemplazarList_fix reemplazarList_clean

/-- Claim C10: the slug-normalisation function `reemplazar` of
areas_scrapper_v2.py is idempotent — `reemplazar (reemplazar t) =
reemplazar t` for every string `t` — and its output contains no accented
vowel from its replacement table, no comma, no whitespace, and no
uppercase letter. -/
theorem C10_reemplazar_idempotent (t : String) :
    reemplazar (reemplazar t) = reemplazar t ∧
    ∀ c ∈ (reemplazar t).data,
      c ∉ tableAccents ∧ c ≠ ',' ∧ isPyWs c = false ∧ c ∉ upperChars := by
  constructor
  · simp only [reemplazar]
    exact congrArg String.mk (reemplazarList_idem t.data)
  · intro c hc
    exact reemplazarList_clean c hc

/-- Witness for C10 at the concrete input "Hola, Año": the character 'h'
occurs in the output and satisfies all four output conditions. -/
theorem C10_reemplazar_idempotent_witness :
    'h' ∈ (reemplazar "Hola, Año").data ∧
    ('h' ∉ tableAccents ∧ 'h' ≠ ',' ∧ isPyWs 'h' = false ∧ 'h' ∉ upperChars) :=
  ⟨by decide, (C10_reemplazar_idempotent "Hola, Año").2 'h' (by decide)⟩

/-! ## Lemmas and claims about year extraction (C3) -/

theorem find?_range' {p : Nat → Bool} :
    ∀ (n s y : Nat), (List.range' s n).find? p = some y →
      p y = true ∧ s ≤ y ∧ y < s + n ∧ ∀ z, s ≤ z → z < y → p z = false := by
  intro n
  induction n with
  | zero => intro s y h; simp [List.range'] at h
  | succ m ih =>
    intro s y h
    rw [List.range'_succ] at h
    by_cases hp : p s = true
    · rw [List.find?_cons_of_pos _ hp] at h
      cases h
      exact ⟨hp, Nat.le_refl s, Nat.lt_add_of_pos_right (Nat.succ_pos m),
        fun z hz1 hz2 => absurd hz1 (Nat.not_le_of_lt hz2)⟩
    · rw [List.find?_cons_of_neg _ hp] at h
      rcases ih (s + 1) y h with ⟨h1, h2, h3, h4⟩
      refine ⟨h1, Nat.le_of_succ_le h2, by omega, fun z hz1 hz2 => ?_⟩
      rcases Nat.eq_or_lt_of_le hz1 with rfl | hz3
      · exact Bool.eq_false_iff.mpr hp
      · exact h4 z hz3 hz2

/-- Claim C3 (amended): on the filename "20240628_Data_2023_WEB.rar" the
matriculados.py discoverer yields partition key 2023, but its general rule
is "smallest year in 2007..2099 occurring as a substring", not "first
4-digit token"; the matriculados_linux.py discoverer instead concatenates
all digit characters and reads the first four, which mixes separate digit
runs (here: 1234 from "a1b2c3d4_2023.rar"). -/
theorem C3_year_extraction_amended :
    extractYear "20240628_Data_2023_WEB.rar" = some 2023 ∧
    extract_data ["20240628_Data_2023_WEB.rar"] =
      [(2023, "20240628_Data_2023_WEB.rar")] ∧
    extractYearLinux "a1b2c3d4_2023.rar" = some 1234 ∧
    ∀ href y, extractYear href = some y →
      2007 ≤ y ∧ y < 2100 ∧ containsSub (Nat.repr y).data href.data = true ∧
      ((List.range' 2007 (y - 2007)).all
        fun z => !containsSub (Nat.repr z).data href.data) = true := by
  refine ⟨by decide, by decide, by decide, ?_⟩
  intro href y h
  rcases find?_range' 93 2007 y h with ⟨h1, h2, h3, h4⟩
  refine ⟨h2, by omega, h1, ?_⟩
  rw [List.all_eq_true]
  intro z hz
  rw [List.mem_range'_1] at hz
  have := h4 z hz.1 (by omega)
  simp [this]

/-- Witness for the universally quantified part of C3 at the concrete link
"2009_2008.rar": the scan returns 2008 (the smallest matching year, even
though 2009 appears first in the filename). -/
theorem C3_year_extraction_witness :
    extractYear "2009_2008.rar" = some 2008 ∧
    (2007 ≤ 2008 ∧ 2008 < 2100 ∧
      containsSub (Nat.repr 2008).data "2009_2008.rar".data = true ∧
      ((List.range' 2007 (2008 - 2007)).all
        fun z => !containsSub (Nat.repr z).data "2009_2008.rar".data) = true) :=
  ⟨by decide, C3_year_extraction_amended.2.2.2 "2009_2008.rar" 2008 (by decide)⟩

/-- Counterexample to claim C3 as stated: for the discovered link
"20240628_Data_2023_WEB.rar" the matriculados_linux.py discoverer derives
partition key 2024 (first four of the concatenated digits), not 2023. -/
theorem C3_year_extraction_counterexample :
    extractYearLinux "20240628_Data_2023_WEB.rar" = some 2024 ∧
    extract_data_linux ["20240628_Data_2023_WEB.rar"] =
      [(2024, "20240628_Data_2023_WEB.rar")] ∧
    (2024 ≠ 2023) := by
  refine ⟨by decide, by decide, by decide⟩

/-! ## Lemmas about the chunked table reader (C5, C6) -/

theorem rowsFrom_length (cols : List String) (year preTs : Nat) (tau : Nat → Nat) :
    ∀ i ls, (rowsFrom cols year preTs tau i ls).length = ls.length := by
  intro i ls
  induction ls generalizing i with
  | nil => rfl
  | cons ln rest ih => simp [rowsFrom, ih]

theorem rowsFrom_append (cols : List String) (year preTs : Nat) (tau : Nat → Nat) :
    ∀ i xs ys, rowsFrom cols year preTs tau i (xs ++ ys) =
      rowsFrom cols year preTs tau i xs ++
        rowsFrom cols year preTs tau (i + xs.length) ys := by
  intro i xs ys
  induction xs generalizing i with
  | nil => simp [rowsFrom]
  | cons ln rest ih =>
    simp only [List.cons_append, rowsFrom, List.append_eq, ih (i + 1), List.length_cons]
    rw [show i + 1 + rest.length = i + (rest.length + 1) from by omega]

theorem takeRows_eq (cols : List String) (year preTs : Nat) (tau : Nat → Nat) :
    ∀ b i ls, takeRows cols year preTs tau b i ls =
      rowsFrom cols year preTs tau i (ls.take b) := by
  intro b
  induction b with
  | zero => intro i ls; simp [takeRows, rowsFrom]
  | succ m ih =>
    intro i ls
    cases ls with
    | nil => simp [takeRows, rowsFrom]
    | cons ln rest => simp [takeRows, List.take_succ_cons, rowsFrom, ih]

theorem takeRows_nil (cols : List String) (year preTs : Nat) (tau : Nat → Nat)
    (b i : Nat) : takeRows cols year preTs tau b i [] = [] := by
  cases b <;> rfl

theorem readerBatches_nil (cols : List String) (year preTs : Nat) (tau : Nat → Nat)
    (b : Nat) : ∀ fuel i, readerBatches cols year preTs tau b fuel i [] = [] := by
  intro fuel i
  cases fuel with
  | zero => rfl
  | succ m => simp [readerBatches, takeRows_nil]

theorem readerBatches_join (cols : List String) (year preTs : Nat) (tau : Nat → Nat)
    {b : Nat} (hb : 0 < b) :
    ∀ fuel i ls, ls.length ≤ fuel →
      (readerBatches cols year preTs tau b fuel i ls).flatten =
        rowsFrom cols year preTs tau i ls := by
  intro fuel
  induction fuel with
  | zero =>
    intro i ls hlen
    rw [List.eq_nil_of_length_eq_zero (Nat.le_zero.mp hlen)]
    rfl
  | succ m ih =>
    intro i ls hlen
    cases ls with
    | nil => rw [readerBatches_nil]; rfl
    | cons ln rest =>
      obtain ⟨b2, rfl⟩ : ∃ b2, b = b2 + 1 := ⟨b - 1, by omega⟩
      have hrows : takeRows cols year preTs tau (b2 + 1) i (ln :: rest) =
          toRowVals cols year preTs (tau i) ln ::
            rowsFrom cols year preTs tau (i + 1) (rest.take b2) := by
        rw [takeRows_eq, List.take_succ_cons, rowsFrom]
      rw [readerBatches]
      simp only [hrows, List.isEmpty_cons, List.drop_succ_cons, Bool.false_eq_true,
        if_false, List.flatten_cons, List.length_cons, rowsFrom_length]
      have hlen2 : (rest.drop b2).length ≤ m := by
        simp only [List.length_drop]
        simp only [List.length_cons] at hlen
        omega
      rw [ih _ _ hlen2]
      have hsplit : rowsFrom cols year preTs tau i (ln :: rest) =
          toRowVals cols year preTs (tau i) ln ::
            (rowsFrom cols year preTs tau (i + 1) (rest.take b2) ++
              rowsFrom cols year preTs tau (i + 1 + (rest.take b2).length)
                (rest.drop b2)) := by
        conv_lhs => rw [show rest = rest.take b2 ++ rest.drop b2 from
          (List.take_append_drop b2 rest).symm]
        rw [rowsFrom, rowsFrom_append]
      rw [hsplit, List.cons_append]
      rw [show i + ((rest.take b2).length + 1) = i + 1 + (rest.take b2).length from by omega]

theorem chunkCount_one {n b : Nat} (h1 : 1 ≤ n) (h2 : n ≤ b) :
    (n + b - 1) / b = 1 := by
  apply Nat.div_eq_of_lt_le <;> omega

theorem chunkCount_step {n b : Nat} (hb : 0 < b) (h : b < n) :
    (n + b - 1) / b = ((n - b) + b - 1) / b + 1 := by
  rw [show n + b - 1 = ((n - b) + b - 1) + b from by omega, Nat.add_div_right _ hb]

theorem chunkCount_pos {n b : Nat} (hb : 0 < b) (h1 : 1 ≤ n) :
    1 ≤ (n + b - 1) / b := by
  rw [Nat.le_div_iff_mul_le hb]
  omega

theorem chunkMod_shift {n b : Nat} (h : b ≤ n) : (n - b) % b = n % b := by
  conv_rhs => rw [show n = (n - b) + b from by omega]
  rw [Nat.add_mod_right]

theorem readerBatches_lengths (cols : List String) (year preTs : Nat) (tau : Nat → Nat)
    {b : Nat} (hb : 0 < b) :
    ∀ fuel i ls, ls.length ≤ fuel → ls ≠ [] →
      (readerBatches cols year preTs tau b fuel i ls).map List.length =
        List.replicate ((ls.length + b - 1) / b - 1) b ++
          [if ls.length % b = 0 then b else ls.length % b] := by
  intro fuel
  induction fuel with
  | zero =>
    intro i ls hlen hne
    exact absurd (List.eq_nil_of_length_eq_zero (Nat.le_zero.mp hlen)) hne
  | succ m ih =>
    intro i ls hlen hne
    rcases ls with _ | ⟨ln, rest⟩
    · exact absurd rfl hne
    obtain ⟨b2, rfl⟩ : ∃ b2, b = b2 + 1 := ⟨b - 1, by omega⟩
    simp only [List.length_cons] at hlen ⊢
    have hrows : takeRows cols year preTs tau (b2 + 1) i (ln :: rest) =
        toRowVals cols year preTs (tau i) ln ::
          rowsFrom cols year preTs tau (i + 1) (rest.take b2) := by
      rw [takeRows_eq, List.take_succ_cons, rowsFrom]
    have hrowlen : (toRowVals cols year preTs (tau i) ln ::
        rowsFrom cols year preTs tau (i + 1) (rest.take b2)).length =
        min (b2 + 1) (rest.length + 1) := by
      simp [rowsFrom_length, List.length_take]
      omega
    rw [readerBatches]
    simp only [hrows, List.isEmpty_cons, List.drop_succ_cons, Bool.false_eq_true,
      if_false, List.map_cons, hrowlen]
    by_cases hle : rest.length + 1 ≤ b2 + 1
    · have hdrop : rest.drop b2 = [] := List.drop_eq_nil_of_le (by omega)
      rw [hdrop, readerBatches_nil]
      simp only [List.map_nil]
      rw [show min (b2 + 1) (rest.length + 1) = rest.length + 1 from by omega]
      rw [chunkCount_one (by omega) hle]
      simp only [Nat.sub_self, List.replicate_zero, List.nil_append]
      by_cases heq : rest.length + 1 = b2 + 1
      · rw [heq, Nat.mod_self]
        simp
      · rw [Nat.mod_eq_of_lt (by omega)]
        rw [if_neg (by omega)]
    · have hgt : b2 + 1 < rest.length + 1 := by omega
      have hdne : rest.drop b2 ≠ [] := by
        intro hd
        have := congrArg List.length hd
        simp only [List.length_drop, List.length_nil] at this
        omega
      have hdlen : (rest.drop b2).length ≤ m := by
        simp only [List.length_drop]
        omega
      rw [show min (b2 + 1) (rest.length + 1) = b2 + 1 from by omega]
      rw [ih _ _ hdlen hdne]
      simp only [List.length_drop]
      rw [show rest.length - b2 = rest.length + 1 - (b2 + 1) from by omega]
      rw [chunkCount_step (Nat.succ_pos b2) hgt]
      rw [← chunkMod_shift (Nat.le_of_lt hgt)]
      rw [Nat.add_sub_cancel]
      have hpos : 1 ≤ (rest.length + 1 - (b2 + 1) + (b2 + 1) - 1) / (b2 + 1) :=
        chunkCount_pos (Nat.succ_pos b2) (by omega)
      rw [show (rest.length + 1 - (b2 + 1) + (b2 + 1) - 1) / (b2 + 1) =
        ((rest.length + 1 - (b2 + 1) + (b2 + 1) - 1) / (b2 + 1) - 1) + 1 from by omega]
      rw [List.replicate_succ, List.cons_append]
      simp only [Nat.add_sub_cancel]

/-- Claim C5: for every delimited input file (modelled by its list of
lines), concatenating the rows of all batches emitted by the chunked table
reader of matriculados.py equals the sequence of data rows of the file
(header line excluded), one row record per data line — under the code's
malformed-row policy (best-effort zipping, no drops) no row is dropped,
duplicated or invented. -/
theorem C5_reader_round_trip (year preTs : Nat) (tau : Nat → Nat) (b : Nat)
    (lines : List String) (hb : 0 < b) :
    (readCSV year preTs tau b lines).flatten =
      rowsFrom (headerCols lines) year preTs tau 0 (lines.drop 1) ∧
    (readCSV year preTs tau b lines).flatten.length = (lines.drop 1).length := by
  have h := readerBatches_join (headerCols lines) year preTs tau hb
    (lines.length + 1) 0 (lines.drop 1)
    (by simp only [List.length_drop]; omega)
  refine ⟨h, ?_⟩
  rw [readCSV, h, rowsFrom_length]

/-- Witness for C5 at a concrete 4-line file (1 header + 3 data rows) with
the source's batch size 2000. -/
theorem C5_reader_round_trip_witness :
    0 < 2000 ∧
    ((readCSV 2023 7 (fun i => i) 2000 ["h1;h2", "a;b", "c;d", "e;f"]).flatten =
      rowsFrom (headerCols ["h1;h2", "a;b", "c;d", "e;f"]) 2023 7 (fun i => i) 0
        (["h1;h2", "a;b", "c;d", "e;f"].drop 1) ∧
    (readCSV 2023 7 (fun i => i) 2000 ["h1;h2", "a;b", "c;d", "e;f"]).flatten.length =
      (["h1;h2", "a;b", "c;d", "e;f"].drop 1).length) :=
  ⟨by decide, C5_reader_round_trip 2023 7 (fun i => i) 2000
    ["h1;h2", "a;b", "c;d", "e;f"] (by decide)⟩

/-- Claim C6: for every delimited file with `n` data rows read with batch
size `b > 0`, the chunked table reader of matriculados.py yields
`⌈n / b⌉` batches, every batch except the last of size exactly `b` and the
last of size `n mod b` (or `b` when `b` divides `n`); an empty data section
yields no batches. -/
theorem C6_reader_batch_sizes (year preTs : Nat) (tau : Nat → Nat) (b : Nat)
    (lines : List String) (hb : 0 < b) :
    ((lines.drop 1).length = 0 → readCSV year preTs tau b lines = []) ∧
    (0 < (lines.drop 1).length →
      (readCSV year preTs tau b lines).map List.length =
        List.replicate (((lines.drop 1).length + b - 1) / b - 1) b ++
          [if (lines.drop 1).length % b = 0 then b
           else (lines.drop 1).length % b]) := by
  constructor
  · intro h0
    rw [readCSV, List.eq_nil_of_length_eq_zero h0, readerBatches_nil]
  · intro hpos
    exact readerBatches_lengths (headerCols lines) year preTs tau hb
      (lines.length + 1) 0 (lines.drop 1)
      (by simp only [List.length_drop]; omega)
      (fun h => by rw [h] at hpos; simp at hpos)

/-- Witness for C6, Scenario D of the spec: a file with 10 data rows read
with batch size 4 yields batches of sizes [4, 4, 2]. -/
theorem C6_reader_batch_sizes_witness :
    0 < 4 ∧
    (readCSV 2023 7 (fun i => i) 4
      ["h", "r1", "r2", "r3", "r4", "r5", "r6", "r7", "r8", "r9", "r10"]).map
        List.length = [4, 4, 2] := by
  refine ⟨by decide, ?_⟩
  have h := (C6_reader_batch_sizes 2023 7 (fun i => i) 4
    ["h", "r1", "r2", "r3", "r4", "r5", "r6", "r7", "r8", "r9", "r10"]
    (by decide)).2 (by decide)
  rw [h]
  decide

/-! ## Lemmas and claims about schema reconciliation (C7) -/

theorem selectCols_skip {c : String} {v : List Val} {rest : Frame} :
    ∀ cs : List String, c ∉ cs →
      selectCols ((c, v) :: rest) cs = selectCols rest cs := by
  intro cs
  induction cs with
  | nil => intro _; rfl
  | cons d ds ih =>
    intro hd
    have hdc : ¬ d = c := fun h => hd (h ▸ List.mem_cons_self d ds)
    rw [selectCols, selectCols]
    rw [show assocGet ((c, v) :: rest) d = assocGet rest d from by
      rw [assocGet, if_neg hdc]]
    rw [ih fun h => hd (List.mem_cons_of_mem d h)]

theorem selectCols_idem {cs : List String} :
    ∀ chunk out : Frame, selectCols chunk cs = some out → cs.Nodup →
      selectCols out cs = some out := by
  induction cs with
  | nil =>
    intro chunk out h _
    rw [selectCols] at h
    cases h
    rfl
  | cons c cs2 ih =>
    intro chunk out h hnd
    rw [selectCols] at h
    rcases hg : assocGet chunk c with _ | v <;> rw [hg] at h
    · exact absurd h (by simp)
    rcases hs : selectCols chunk cs2 with _ | rest <;> rw [hs] at h
    · exact absurd h (by simp)
    simp only [Option.some.injEq] at h
    subst h
    have hcn : c ∉ cs2 := (List.nodup_cons.mp hnd).1
    rw [selectCols]
    rw [show assocGet ((c, v) :: rest) c = some v from by rw [assocGet, if_pos rfl]]
    rw [selectCols_skip cs2 hcn, ih chunk rest hs (List.nodup_cons.mp hnd).2]

theorem selectCols_exact :
    ∀ chunk : Frame, ∀ l : List String, chunk.map Prod.fst = l → l.Nodup →
      selectCols chunk l = some chunk := by
  intro chunk
  induction chunk with
  | nil =>
    intro l hl _
    rw [← hl]
    rfl
  | cons p rest ih =>
    intro l hl hnd
    rcases p with ⟨a, v⟩
    rw [← hl]
    simp only [List.map_cons]
    rw [selectCols]
    rw [show assocGet ((a, v) :: rest) a = some v from by rw [assocGet, if_pos rfl]]
    rw [← hl] at hnd
    simp only [List.map_cons] at hnd
    have han : a ∉ rest.map Prod.fst := (List.nodup_cons.mp hnd).1
    rw [selectCols_skip _ han, ih (rest.map Prod.fst) rfl (List.nodup_cons.mp hnd).2]

theorem desired_columns_nodup : desired_columns.Nodup := by decide

theorem existing_columns_nodup (table_columns : List String) :
    (existing_columns table_columns).Nodup :=
  List.Nodup.filter _ desired_columns_nodup

/-- Counterexample to claim C7 as stated: the batch `[("periodo", ...)]`
has its field set contained in the destination columns (here all of
`desired_columns`), yet the coded reconciliation step does not leave it
unchanged — it projects onto the whole fixed
`desired_columns ∩ table_columns` list and raises a `KeyError` (modelled
as `none`) because the other desired columns are absent from the batch. -/
theorem C7_reconcile_counterexample :
    (([("periodo", [Val.s "1"])] : Frame).map Prod.fst).all
      (fun c => desired_columns.contains c) = true ∧
    reconcile desired_columns [("periodo", [Val.s "1"])] ≠
      some [("periodo", [Val.s "1"])] := by
  exact ⟨by decide, by decide⟩

/-- Claim C7 (amended): the coded reconciliation step projects a batch onto
the fixed `desired_columns ∩ table_columns` list, not onto the batch's own
field set.  It is idempotent in the following sense: a successfully
reconciled batch reconciles again to itself, and a batch whose columns are
exactly `existing_columns table_columns` is left unchanged.  The
reconciliation step as worded in the spec (intersecting the batch's own
fields with the destination columns) is a no-op on every batch whose
fields are a subset of the destination columns. -/
theorem C7_reconcile_amended (table_columns : List String) (chunk out : Frame) :
    (reconcile table_columns chunk = some out →
      reconcile table_columns out = some out) ∧
    (chunk.map Prod.fst = existing_columns table_columns →
      reconcile table_columns chunk = some chunk) ∧
    ((chunk.map Prod.fst).all (fun c => table_columns.contains c) = true →
      reconcileSpec table_columns chunk = chunk) := by
  refine ⟨?_, ?_, ?_⟩
  · intro h
    exact selectCols_idem chunk out h (existing_columns_nodup table_columns)
  · intro h
    exact selectCols_exact chunk _ h (existing_columns_nodup table_columns)
  · intro h
    apply List.filter_eq_self.mpr
    intro p hp
    rw [List.all_eq_true] at h
    exact h p.1 (List.mem_map_of_mem Prod.fst hp)

/-- Witness for C7 (amended) at concrete inputs: destination columns
`["year", "periodo"]`; a batch with an extra column reconciles to the
projection and that projection reconciles to itself; a batch whose columns
are exactly the intersection list is unchanged; the spec-worded step fixes
a batch whose fields all exist in the destination. -/
theorem C7_reconcile_amended_witness :
    (reconcile ["year", "periodo"]
      [("periodo", [Val.s "1"]), ("year", [Val.i 2023])] =
        some [("periodo", [Val.s "1"]), ("year", [Val.i 2023])]) ∧
    (reconcile ["year", "periodo"]
      [("periodo", [Val.s "1"]), ("year", [Val.i 2023])] =
        some [("periodo", [Val.s "1"]), ("year", [Val.i 2023])]) ∧
    reconcileSpec ["year", "periodo"] [("periodo", [Val.s "1"])] =
      [("periodo", [Val.s "1"])] :=
  ⟨(C7_reconcile_amended ["year", "periodo"]
      [("extra", []), ("periodo", [Val.s "1"]), ("year", [Val.i 2023])]
      [("periodo", [Val.s "1"]), ("year", [Val.i 2023])]).1 (by decide),
   (C7_reconcile_amended ["year", "periodo"]
      [("periodo", [Val.s "1"]), ("year", [Val.i 2023])] []).2.1 (by decide),
   (C7_reconcile_amended ["year", "periodo"]
      [("periodo", [Val.s "1"])] []).2.2 (by decide)⟩

/-! ## Calendar facts: the year walk stays in range for valid datetimes -/

theorem sumDaysFrom_split : ∀ a b y, sumDaysFrom y (a + b + 1) =
    sumDaysFrom y a + sumDaysFrom (y + a + 1) b := by
  intro a
  induction a with
  | zero =>
    intro b y
    simp only [Nat.zero_add, Nat.add_zero]
    rfl
  | succ m ih =>
    intro b y
    rw [show m + 1 + b + 1 = (m + b + 1) + 1 from by omega, sumDaysFrom]
    rw [ih b (y + 1), sumDaysFrom]
    rw [show y + 1 + m + 1 = y + (m + 1) + 1 from by omega]
    omega

set_option maxRecDepth 6000 in
theorem sumDays_chunk1 : sumDaysFrom 1 499 = 182621 := by decide

set_option maxRecDepth 6000 in
theorem sumDays_chunk2 : sumDaysFrom 501 499 = 182621 := by decide

set_option maxRecDepth 6000 in
theorem sumDays_chunk3 : sumDaysFrom 1001 499 = 182621 := by decide

set_option maxRecDepth 6000 in
theorem sumDays_chunk4 : sumDaysFrom 1501 499 = 182622 := by decide

set_option maxRecDepth 6000 in
theorem sumDays_chunk5 : sumDaysFrom 2001 499 = 182621 := by decide

set_option maxRecDepth 6000 in
theorem sumDays_chunk6 : sumDaysFrom 2501 499 = 182621 := by decide

set_option maxRecDepth 6000 in
theorem sumDays_chunk7 : sumDaysFrom 3001 499 = 182621 := by decide

set_option maxRecDepth 6000 in
theorem sumDays_chunk8 : sumDaysFrom 3501 499 = 182622 := by decide

set_option maxRecDepth 6000 in
theorem sumDays_chunk9 : sumDaysFrom 4001 499 = 182621 := by decide

set_option maxRecDepth 6000 in
theorem sumDays_chunk10 : sumDaysFrom 4501 499 = 182621 := by decide

set_option maxRecDepth 6000 in
theorem sumDays_chunk11 : sumDaysFrom 5001 499 = 182621 := by decide

set_option maxRecDepth 6000 in
theorem sumDays_chunk12 : sumDaysFrom 5501 499 = 182622 := by decide

set_option maxRecDepth 6000 in
theorem sumDays_chunk13 : sumDaysFrom 6001 499 = 182621 := by decide

set_option maxRecDepth 6000 in
theorem sumDays_chunk14 : sumDaysFrom 6501 499 = 182621 := by decide

set_option maxRecDepth 6000 in
theorem sumDays_chunk15 : sumDaysFrom 7001 499 = 182621 := by decide

set_option maxRecDepth 6000 in
theorem sumDays_chunk16 : sumDaysFrom 7501 499 = 182622 := by decide

set_option maxRecDepth 6000 in
theorem sumDays_chunk17 : sumDaysFrom 8001 499 = 182621 := by decide

set_option maxRecDepth 6000 in
theorem sumDays_chunk18 : sumDaysFrom 8501 499 = 182621 := by decide

set_option maxRecDepth 6000 in
theorem sumDays_chunk19 : sumDaysFrom 9001 499 = 182621 := by decide

set_option maxRecDepth 6000 in
theorem sumDays_chunk20 : sumDaysFrom 9501 498 = 182256 := by decide

theorem sumDays_total : sumDaysFrom 1 9998 = 3652059 := by
  have e1 : sumDaysFrom 1 9998 = sumDaysFrom 1 499 + sumDaysFrom 501 9498 := by
    have h := sumDaysFrom_split 499 9498 1
    norm_num at h
    exact h
  have e2 : sumDaysFrom 501 9498 = sumDaysFrom 501 499 + sumDaysFrom 1001 8998 := by
    have h := sumDaysFrom_split 499 8998 501
    norm_num at h
    exact h
  have e3 : sumDaysFrom 1001 8998 = sumDaysFrom 1001 499 + sumDaysFrom 1501 8498 := by
    have h := sumDaysFrom_split 499 8498 1001
    norm_num at h
    exact h
  have e4 : sumDaysFrom 1501 8498 = sumDaysFrom 1501 499 + sumDaysFrom 2001 7998 := by
    have h := sumDaysFrom_split 499 7998 1501
    norm_num at h
    exact h
  have e5 : sumDaysFrom 2001 7998 = sumDaysFrom 2001 499 + sumDaysFrom 2501 7498 := by
    have h := sumDaysFrom_split 499 7498 2001
    norm_num at h
    exact h
  have e6 : sumDaysFrom 2501 7498 = sumDaysFrom 2501 499 + sumDaysFrom 3001 6998 := by
    have h := sumDaysFrom_split 499 6998 2501
    norm_num at h
    exact h
  have e7 : sumDaysFrom 3001 6998 = sumDaysFrom 3001 499 + sumDaysFrom 3501 6498 := by
    have h := sumDaysFrom_split 499 6498 3001
    norm_num at h
    exact h
  have e8 : sumDaysFrom 3501 6498 = sumDaysFrom 3501 499 + sumDaysFrom 4001 5998 := by
    have h := sumDaysFrom_split 499 5998 3501
    norm_num at h
    exact h
  have e9 : sumDaysFrom 4001 5998 = sumDaysFrom 4001 499 + sumDaysFrom 4501 5498 := by
    have h := sumDaysFrom_split 499 5498 4001
    norm_num at h
    exact h
  have e10 : sumDaysFrom 4501 5498 = sumDaysFrom 4501 499 + sumDaysFrom 5001 4998 := by
    have h := sumDaysFrom_split 499 4998 4501
    norm_num at h
    exact h
  have e11 : sumDaysFrom 5001 4998 = sumDaysFrom 5001 499 + sumDaysFrom 5501 4498 := by
    have h := sumDaysFrom_split 499 4498 5001
    norm_num at h
    exact h
  have e12 : sumDaysFrom 5501 4498 = sumDaysFrom 5501 499 + sumDaysFrom 6001 3998 := by
    have h := sumDaysFrom_split 499 3998 5501
    norm_num at h
    exact h
  have e13 : sumDaysFrom 6001 3998 = sumDaysFrom 6001 499 + sumDaysFrom 6501 3498 := by
    have h := sumDaysFrom_split 499 3498 6001
    norm_num at h
    exact h
  have e14 : sumDaysFrom 6501 3498 = sumDaysFrom 6501 499 + sumDaysFrom 7001 2998 := by
    have h := sumDaysFrom_split 499 2998 6501
    norm_num at h
    exact h
  have e15 : sumDaysFrom 7001 2998 = sumDaysFrom 7001 499 + sumDaysFrom 7501 2498 := by
    have h := sumDaysFrom_split 499 2498 7001
    norm_num at h
    exact h
  have e16 : sumDaysFrom 7501 2498 = sumDaysFrom 7501 499 + sumDaysFrom 8001 1998 := by
    have h := sumDaysFrom_split 499 1998 7501
    norm_num at h
    exact h
  have e17 : sumDaysFrom 8001 1998 = sumDaysFrom 8001 499 + sumDaysFrom 8501 1498 := by
    have h := sumDaysFrom_split 499 1498 8001
    norm_num at h
    exact h
  have e18 : sumDaysFrom 8501 1498 = sumDaysFrom 8501 499 + sumDaysFrom 9001 998 := by
    have h := sumDaysFrom_split 499 998 8501
    norm_num at h
    exact h
  have e19 : sumDaysFrom 9001 998 = sumDaysFrom 9001 499 + sumDaysFrom 9501 498 := by
    have h := sumDaysFrom_split 499 498 9001
    norm_num at h
    exact h
  rw [e1, e2, e3, e4, e5, e6, e7, e8, e9, e10, e11, e12, e13, e14, e15, e16, e17, e18, e19, sumDays_chunk1, sumDays_chunk2, sumDays_chunk3, sumDays_chunk4, sumDays_chunk5, sumDays_chunk6, sumDays_chunk7, sumDays_chunk8, sumDays_chunk9, sumDays_chunk10, sumDays_chunk11, sumDays_chunk12, sumDays_chunk13, sumDays_chunk14, sumDays_chunk15, sumDays_chunk16, sumDays_chunk17, sumDays_chunk18, sumDays_chunk19, sumDays_chunk20]
theorem yearWalk_ge : ∀ fuel y r, y ≤ (yearWalk fuel y r).1 := by
  intro fuel
  induction fuel with
  | zero => intro y r; exact Nat.le_refl y
  | succ m ih =>
    intro y r
    rw [yearWalk]
    by_cases h : r < daysInYear y
    · rw [if_pos h]
    · rw [if_neg h]
      exact Nat.le_trans (Nat.le_succ y) (ih (y + 1) _)

theorem yearWalk_le : ∀ fuel y r, (yearWalk fuel y r).1 ≤ y + fuel := by
  intro fuel
  induction fuel with
  | zero => intro y r; exact Nat.le_refl y
  | succ m ih =>
    intro y r
    rw [yearWalk]
    by_cases h : r < daysInYear y
    · rw [if_pos h]; omega
    · rw [if_neg h]
      have := ih (y + 1) (r - daysInYear y)
      omega

theorem yearWalk_doy : ∀ fuel y r, r < sumDaysFrom y fuel →
    (yearWalk fuel y r).2 < daysInYear (yearWalk fuel y r).1 := by
  intro fuel
  induction fuel with
  | zero =>
    intro y r h
    rw [sumDaysFrom] at h
    exact h
  | succ m ih =>
    intro y r h
    rw [yearWalk]
    by_cases hr : r < daysInYear y
    · rw [if_pos hr]; exact hr
    · rw [if_neg hr]
      apply ih
      rw [sumDaysFrom] at h
      omega

theorem monthWalk_bounds : ∀ lens m r, r < lens.sum → (∀ x ∈ lens, x ≤ 31) →
    m ≤ (monthWalk lens m r).1 ∧ (monthWalk lens m r).1 ≤ m + lens.length - 1 ∧
    1 ≤ (monthWalk lens m r).2 ∧ (monthWalk lens m r).2 ≤ 31 := by
  intro lens
  induction lens with
  | nil => intro m r h _; simp at h
  | cons len rest ih =>
    intro m r h hle
    rw [monthWalk]
    by_cases hr : r < len
    · rw [if_pos hr]
      have h31 : len ≤ 31 := hle len (List.mem_cons_self len rest)
      refine ⟨Nat.le_refl m, by simp, by omega, by omega⟩
    · rw [if_neg hr]
      have hsum : r - len < rest.sum := by
        rw [List.sum_cons] at h
        omega
      have := ih (m + 1) (r - len) hsum fun x hx => hle x (List.mem_cons_of_mem len hx)
      simp only [List.length_cons]
      omega

theorem monthLengths_sum (y : Nat) : (monthLengths y).sum = daysInYear y := by
  cases h : isLeap y <;> simp [monthLengths, daysInYear, h]

theorem monthLengths_le (y : Nat) : ∀ x ∈ monthLengths y, x ≤ 31 := by
  cases h : isLeap y <;> simp only [monthLengths, h] <;> decide

/-- For every day count inside the `datetime` range, the modelled civil
conversion produces a genuine calendar date: year 1..9999, month 1..12,
day 1..31 — so the zero-padded `strftime` model never truncates. -/
theorem civilFromDays_bounds {z : Nat} (hz : z ≤ 3652058) :
    1 ≤ (civilFromDays z).1 ∧ (civilFromDays z).1 ≤ 9999 ∧
    1 ≤ (civilFromDays z).2.1 ∧ (civilFromDays z).2.1 ≤ 12 ∧
    1 ≤ (civilFromDays z).2.2 ∧ (civilFromDays z).2.2 ≤ 31 := by
  have hy1 := yearWalk_ge 9998 1 z
  have hy2 := yearWalk_le 9998 1 z
  have hdoy := yearWalk_doy 9998 1 z (by rw [sumDays_total]; omega)
  have hsum : (yearWalk 9998 1 z).2 < (monthLengths (yearWalk 9998 1 z).1).sum := by
    rw [monthLengths_sum]
    exact hdoy
  have hm := monthWalk_bounds (monthLengths (yearWalk 9998 1 z).1) 1
    (yearWalk 9998 1 z).2 hsum (monthLengths_le _)
  have hlen : (monthLengths (yearWalk 9998 1 z).1).length = 12 := rfl
  rw [hlen] at hm
  refine ⟨?_, ?_, ?_, ?_, ?_, ?_⟩
  · show 1 ≤ (yearWalk 9998 1 z).1
    exact hy1
  · show (yearWalk 9998 1 z).1 ≤ 9999
    omega
  · show 1 ≤ (monthWalk (monthLengths (yearWalk 9998 1 z).1) 1 (yearWalk 9998 1 z).2).1
    omega
  · show (monthWalk (monthLengths (yearWalk 9998 1 z).1) 1 (yearWalk 9998 1 z).2).1 ≤ 12
    omega
  · show 1 ≤ (monthWalk (monthLengths (yearWalk 9998 1 z).1) 1 (yearWalk 9998 1 z).2).2
    omega
  · show (monthWalk (monthLengths (yearWalk 9998 1 z).1) 1 (yearWalk 9998 1 z).2).2 ≤ 31
    omega

theorem digitChar_isDigit {n : Nat} (h : n < 10) : (Nat.digitChar n).isDigit = true := by
  interval_cases n <;> decide

theorem fmtTimestamp_format (y mo d h mi s : Nat) :
    isTimestampFormat (fmtTimestamp y mo d h mi s) = true := by
  simp only [fmtTimestamp, pad4, pad2, List.cons_append, List.nil_append]
  simp only [isTimestampFormat, Bool.and_eq_true]
  repeat' apply And.intro
  all_goals exact digitChar_isDigit (Nat.mod_lt _ (by norm_num))

theorem fmtEpoch_format (t : Nat) : isTimestampFormat (fmtEpoch t) = true := by
  unfold fmtEpoch
  exact fmtTimestamp_format _ _ _ _ _ _

/-- Claim C9 (amended): for every `datetime.now()` value and every input
string, `calcular_fecha` either returns `None`, or returns a string in the
`%Y-%m-%d %H:%M:%S` format; the only exception it can raise is
`OverflowError`, and only when a matched `hace N …` relative offset exceeds
the `timedelta` day bound or reaches below `datetime.min` — the claim's
"never raises" fails exactly there. -/
theorem C9_calcular_fecha_amended (now : Nat) (date : String) :
    calcularFechaCheck now date = true := by
  rcases hp : strptimeDMY date with _ | dmy
  · rcases hh : haceOffset date.data with _ | esec
    · have hc : calcular_fecha now date = .ok none := by
        simp only [calcular_fecha, hp, hh]
      simp only [calcularFechaCheck, hc]
    · rcases esec with e | sec
      · cases e
        have hc : calcular_fecha now date = .error .overflow := by
          simp only [calcular_fecha, hp, hh]
        simp only [calcularFechaCheck, hc, hh]
      · by_cases hgt : sec > now
        · have hc : calcular_fecha now date = .error .overflow := by
            simp only [calcular_fecha, hp, hh, dtSub, if_pos hgt]
          simp only [calcularFechaCheck, hc, hh]
          simp [hgt]
        · have hc : calcular_fecha now date = .ok (some (fmtEpoch (now - sec))) := by
            simp only [calcular_fecha, hp, hh, dtSub, if_neg hgt]
          simp only [calcularFechaCheck, hc]
          exact fmtEpoch_format _
  · have hc : calcular_fecha now date =
        .ok (some (fmtTimestamp dmy.2.2 dmy.2.1 dmy.1 0 0 0)) := by
      simp only [calcular_fecha, hp]
    simp only [calcularFechaCheck, hc]
    exact fmtTimestamp_format _ _ _ _ _ _

/-- Counterexample to claim C9 as stated: with a perfectly valid current
time, the input "hace 1000000000 días" matches the days pattern, and
`timedelta(days=1000000000)` raises `OverflowError` — only `ValueError` is
caught, so `calcular_fecha` raises instead of returning. -/
theorem C9_calcular_fecha_counterexample :
    63902908800 ≤ maxDT ∧
    calcular_fecha 63902908800 "hace 1000000000 días" = .error PyExn.overflow :=
  ⟨by decide, rfl⟩

/-! ## Lemmas and claim about the news job (C8) -/

theorem noticiaOf_link {now : Nat} {r : NewsResult} {n : Noticia}
    (h : noticiaOf now r = .ok n) : n.link_noticia = r.link := by
  unfold noticiaOf at h
  rcases hc : calcular_fecha now r.date with e | fecha <;> rw [hc] at h
  · exact absurd h (by simp)
  · simp only [Except.ok.injEq] at h
    rw [← h]

theorem almacenarLoop_ok (now : Nat) (table : List Noticia) :
    ∀ (rs : List NewsResult) (ex : Nat) (acc : List Noticia) (ex2 : Nat)
      (acc2 : List Noticia),
      almacenarLoop now table rs ex acc = .ok (ex2, acc2) →
      ex2 = ex + (rs.filter fun r =>
        (table.map Noticia.link_noticia).contains r.link).length ∧
      acc2.map Noticia.link_noticia = acc.map Noticia.link_noticia ++
        (rs.filter fun r =>
          !(table.map Noticia.link_noticia).contains r.link).map NewsResult.link := by
  intro rs
  induction rs with
  | nil =>
    intro ex acc ex2 acc2 h
    rw [almacenarLoop] at h
    simp only [Except.ok.injEq, Prod.mk.injEq] at h
    rcases h with ⟨h1, h2⟩
    subst h1
    subst h2
    simp
  | cons r rest ih =>
    intro ex acc ex2 acc2 h
    rw [almacenarLoop] at h
    rcases hn : noticiaOf now r with e | nueva <;> rw [hn] at h
    · exact absurd h (by simp)
    replace h : (if (table.map Noticia.link_noticia).contains r.link
        then almacenarLoop now table rest (ex + 1) acc
        else almacenarLoop now table rest ex (acc ++ [nueva])) = .ok (ex2, acc2) := h
    by_cases hm : (table.map Noticia.link_noticia).contains r.link
    · rw [if_pos hm] at h
      rcases ih (ex + 1) acc ex2 acc2 h with ⟨h1, h2⟩
      constructor
      · have hf : (List.filter (fun x =>
            (table.map Noticia.link_noticia).contains x.link) (r :: rest)).length =
            (List.filter (fun x =>
              (table.map Noticia.link_noticia).contains x.link) rest).length + 1 := by
          rw [List.filter_cons, if_pos hm]
          rfl
        omega
      · have hf2 : List.filter (fun x =>
            !(table.map Noticia.link_noticia).contains x.link) (r :: rest) =
            List.filter (fun x =>
              !(table.map Noticia.link_noticia).contains x.link) rest := by
          rw [List.filter_cons, if_neg (by simpa using hm)]
        rw [hf2, h2]
    · rw [if_neg hm] at h
      rcases ih ex (acc ++ [nueva]) ex2 acc2 h with ⟨h1, h2⟩
      have hmb : ((table.map Noticia.link_noticia).contains r.link) = false := by
        simpa using hm
      constructor
      · have hf : List.filter (fun x =>
            (table.map Noticia.link_noticia).contains x.link) (r :: rest) =
            List.filter (fun x =>
              (table.map Noticia.link_noticia).contains x.link) rest := by
          rw [List.filter_cons, if_neg (by simpa using hmb)]
        rw [hf]
        exact h1
      · have hf2 : List.filter (fun x =>
            !(table.map Noticia.link_noticia).contains x.link) (r :: rest) =
            r :: List.filter (fun x =>
              !(table.map Noticia.link_noticia).contains x.link) rest := by
          rw [List.filter_cons, if_pos (by simpa using hmb)]
        rw [hf2, h2]
        simp [noticiaOf_link hn]

/-- Claim C8: the news job deduplicates by URL against the committed
`noticias` table: on a successful run, the count of "existing" news equals
the number of results whose link is already in the table, the original
table rows are preserved, the inserted rows are exactly (by link, in
order) the results whose link was not already present, and the "added"
count is the number of inserted rows.  In particular no row is created for
a result whose link already exists, and it is counted under "existing". -/
theorem C8_news_dedup_by_url (now : Nat) (table : List Noticia)
    (results : List NewsResult) (insertOk : Bool) (ag ex : Nat)
    (final : List Noticia)
    (h : almacenar_noticias_en_db now table results insertOk = .ok (ag, ex, final)) :
    ex = (results.filter fun r =>
      (table.map Noticia.link_noticia).contains r.link).length ∧
    final.take table.length = table ∧
    (final.drop table.length).map Noticia.link_noticia =
      (if insertOk then
        (results.filter fun r =>
          !(table.map Noticia.link_noticia).contains r.link).map NewsResult.link
       else []) ∧
    ag = (final.drop table.length).length := by
  unfold almacenar_noticias_en_db at h
  rcases hl : almacenarLoop now table results 0 [] with e | exAcc <;> rw [hl] at h
  · exact absurd h (by simp)
  rcases exAcc with ⟨ex0, acc⟩
  rcases almacenarLoop_ok now table results 0 [] ex0 acc hl with ⟨h1, h2⟩
  simp only [List.map_nil, List.nil_append] at h2
  cases insertOk
  · simp only [Bool.false_eq_true, if_false, Except.ok.injEq, Prod.mk.injEq] at h
    rcases h with ⟨hag, hex, hfin⟩
    subst hag
    subst hex
    subst hfin
    refine ⟨by omega, by simp, by simp, by simp⟩
  · simp only [if_true, Except.ok.injEq, Prod.mk.injEq] at h
    rcases h with ⟨hag, hex, hfin⟩
    subst hag
    subst hex
    subst hfin
    refine ⟨by omega, List.take_left table acc, ?_, ?_⟩
    · rw [List.drop_left table acc]
      simp only [if_true]
      exact h2
    · rw [List.drop_left table acc]

/-- Witness for C8 at the concrete sample run: the result with the
already-present URL "u1" is counted as existing and adds no row; only
"u2" is inserted. -/
theorem C8_news_dedup_by_url_witness :
    (1 = (newsResults1.filter fun r =>
      (newsTable1.map Noticia.link_noticia).contains r.link).length) ∧
    newsFinal1.take newsTable1.length = newsTable1 ∧
    (newsFinal1.drop newsTable1.length).map Noticia.link_noticia =
      (if true then
        (newsResults1.filter fun r =>
          !(newsTable1.map Noticia.link_noticia).contains r.link).map NewsResult.link
       else []) ∧
    1 = (newsFinal1.drop newsTable1.length).length :=
  C8_news_dedup_by_url 0 newsTable1 newsResults1 true 1 1 newsFinal1 rfl

/-! ## Claims about the per-artifact orchestration (C1, C2, C4) -/

/-- Counterexample to claim C1 as stated: with artifact "2023.rar" whose
CSV is already ledgered, the orchestrator still downloads and extracts the
archive (`downloaded = true`) and performs a database write attributable
to the artifact (a redundant skip row in `jobs_log`); only the
destination-table append is skipped. -/
theorem C1_ledger_skip_counterexample :
    (processArtifactLinux ["year"] c1Env dbWith2023).2.downloaded = true ∧
    (processArtifactLinux ["year"] c1Env dbWith2023).1.jobsLog ≠
      dbWith2023.jobsLog ∧
    (processArtifactLinux ["year"] c1Env dbWith2023).1.dest = dbWith2023.dest := by
  refine ⟨rfl, by decide, rfl⟩

/-- Claim C1 (amended): an artifact whose CSV filename is already in
`jobs_log` is still fetched and extracted (the ledger check runs only
after extraction); the orchestrator skips the read/load — no rows are
appended to the destination table — but writes a redundant skip entry to
`jobs_log`, and the temporary archive is removed. -/
theorem C1_ledger_skip_amended (tableCols : List String) (env : LinuxEnv)
    (s : DBSt) (csv : String)
    (hd : env.downloadOk = true) (hw : env.winrarOk = true)
    (hx : env.extractOk = true) (hc : env.csvFile = some csv)
    (hin : csv ∈ s.jobsLog.map Prod.snd)
    (hs : env.skipInsertOk = true) :
    processArtifactLinux tableCols env s =
      ({ s with jobsLog := s.jobsLog ++ [("enrolled_job", csv)] },
       { downloaded := true, tmpCreated := true, tmpRemoved := true }) := by
  simp [processArtifactLinux, hd, hw, hx, hc, hin, hs]

/-- Witness for C1 (amended) at the concrete already-ledgered artifact. -/
theorem C1_ledger_skip_witness :
    c1Env.downloadOk = true ∧
    processArtifactLinux ["year"] c1Env dbWith2023 =
      ({ dbWith2023 with
          jobsLog := dbWith2023.jobsLog ++ [("enrolled_job", "2023.csv")] },
       { downloaded := true, tmpCreated := true, tmpRemoved := true }) :=
  ⟨rfl, C1_ledger_skip_amended ["year"] c1Env dbWith2023 "2023.csv"
    rfl rfl rfl rfl (by decide) rfl⟩

/-- Counterexample to claim C2 as stated: with two batches of which the
second `to_sql` append fails (and the read loop itself completing), the
run still writes the artifact's `jobs_log` entry — the artifact is NOT
left without a ledger entry, so a rerun will skip it despite the missing
rows. -/
theorem C2_ledger_after_load_counterexample :
    c2Env.appendOk 1 = false ∧
    (processArtifactLinux ["year"] c2Env dbEmpty).1.dest.length = 1 ∧
    (processArtifactLinux ["year"] c2Env dbEmpty).1.jobsLog =
      [("enrolled_job", "2024.csv")] := by
  refine ⟨rfl, rfl, rfl⟩

/-- Claim C2 (amended): the ledger entry is written after the chunk loop
finishes, regardless of per-batch append failures — batch `to_sql` errors
are caught and only logged.  The ledger write is skipped only when reading
or processing the CSV itself raises (modelled by `readErrorAfter` and the
reconciliation abort flag). -/
theorem C2_ledger_after_load_amended (tableCols : List String) (env : LinuxEnv)
    (s : DBSt) (csv : String)
    (hd : env.downloadOk = true) (hw : env.winrarOk = true)
    (hx : env.extractOk = true) (hc : env.csvFile = some csv)
    (hnin : csv ∉ s.jobsLog.map Prod.snd)
    (hdone : env.doneInsertOk = true) :
    (env.readErrorAfter = none →
      (loadChunks tableCols env.year env.preAt env.chunkTs env.appendOk 0
        env.chunks).2 = false →
      (processArtifactLinux tableCols env s).1.jobsLog =
        s.jobsLog ++ [("enrolled_job", csv)] ∧
      (processArtifactLinux tableCols env s).1.dest = s.dest ++
        (loadChunks tableCols env.year env.preAt env.chunkTs env.appendOk 0
          env.chunks).1) ∧
    (∀ k, env.readErrorAfter = some k →
      (processArtifactLinux tableCols env s).1.jobsLog = s.jobsLog) := by
  constructor
  · intro hre hab
    simp [processArtifactLinux, hd, hw, hx, hc, hnin, hre, hab, hdone,
      List.take_length]
  · intro k hk
    simp [processArtifactLinux, hd, hw, hx, hc, hnin, hk]

/-- Witness for C2 (amended) at the concrete artifact with a failed second
batch append: the ledger entry is written and the destination holds only
the first batch. -/
theorem C2_ledger_after_load_witness :
    (processArtifactLinux ["year"] c2Env dbEmpty).1.jobsLog =
      dbEmpty.jobsLog ++ [("enrolled_job", "2024.csv")] ∧
    (processArtifactLinux ["year"] c2Env dbEmpty).1.dest = dbEmpty.dest ++
      (loadChunks ["year"] c2Env.year c2Env.preAt c2Env.chunkTs c2Env.appendOk 0
        c2Env.chunks).1 :=
  (C2_ledger_after_load_amended ["year"] c2Env dbEmpty "2024.csv"
    rfl rfl rfl rfl (by decide) rfl).1 rfl (by decide)

/-- Counterexample to claim C4 as stated: in matriculados.py a failed
extraction abandons the artifact and the run proceeds, but the saved
archive "2023.rar" is never removed from the working directory. -/
theorem C4_extract_failure_counterexample :
    (winPhase1 [wEnvFail] winEmpty).savedFiles = ["2023.rar"] ∧
    (winPhase1 [wEnvFail] winEmpty).savedFiles ≠ [] ∧
    (winPhase1 [wEnvFail] winEmpty).jobsLog = [] ∧
    (winPhase1 [wEnvFail] winEmpty).files = [] := by
  refine ⟨rfl, by decide, rfl, rfl⟩

/-- Claim C4 (amended): when the extraction subprocess exits non-zero, the
artifact is abandoned (no load, no ledger entry) and the run proceeds to
the next artifact without raising in both variants; the temporary archive
is removed in matriculados_linux.py, while matriculados.py leaves the
saved archive in the working directory. -/
theorem C4_extract_failure_amended (tableCols : List String) (envL : LinuxEnv)
    (sL : DBSt) (rest : List LinuxEnv) (envW : WinEnv) (sW : WinSt)
    (hd : envL.downloadOk = true) (hw : envL.winrarOk = true)
    (hx : envL.extractOk = false)
    (hwd : envW.downloadOk = true) (hws : envW.saveOk = true)
    (hwx : envW.extractOk = false) :
    processArtifactLinux tableCols envL sL =
      (sL, { downloaded := true, tmpCreated := true, tmpRemoved := true }) ∧
    (runLinux tableCols (envL :: rest) sL).1 = (runLinux tableCols rest sL).1 ∧
    processWinItem envW sW =
      { sW with savedFiles := sW.savedFiles ++ [Nat.repr envW.year ++ ".rar"] } := by
  have h1 : processArtifactLinux tableCols envL sL =
      (sL, { downloaded := true, tmpCreated := true, tmpRemoved := true }) := by
    simp [processArtifactLinux, hd, hw, hx]
  refine ⟨h1, ?_, ?_⟩
  · rw [runLinux, h1]
  · simp [processWinItem, hwd, hws, hwx]

/-- Witness for C4 (amended) at concrete failing extractions in both
variants. -/
theorem C4_extract_failure_witness :
    processArtifactLinux ["year"] c4EnvL dbEmpty =
      (dbEmpty, { downloaded := true, tmpCreated := true, tmpRemoved := true }) ∧
    (runLinux ["year"] [c4EnvL] dbEmpty).1 = (runLinux ["year"] [] dbEmpty).1 ∧
    processWinItem wEnvFail winEmpty =
      { winEmpty with
          savedFiles := winEmpty.savedFiles ++ [Nat.repr wEnvFail.year ++ ".rar"] } :=
  C4_extract_failure_amended ["year"] c4EnvL dbEmpty [] wEnvFail winEmpty
    rfl rfl rfl rfl rfl rfl
